import Mathlib

/-!
# Verification of the StoryGraph → Goodreads CSV utilities

Shallow embedding of the three Python command-line utilities
(`storygraph_to_goodreads.py`, `compare_csv.py`, `split.py`) and proofs of
the specification claims about them.

Encoding conventions:
* a CSV row (as produced by `csv.DictReader`) is an association list
  `List (String × String)` from column name to cell value, in header order;
* Python strings are Lean `String`s; `str.strip`, `str.lower`, `str.split`
  and `str.replace(pat, '')` are modelled character-exactly for ASCII data
  (Python's Unicode-aware case folding and exotic whitespace classes are
  out of scope for the catalog data handled here);
* `datetime.strptime` is modelled by explicit pattern parsers that follow
  CPython's `_strptime` regex fragments for the directives actually used
  (`%Y` = exactly four digits, `%d` = `3[01]|[12]\d|0[1-9]|[1-9]`,
  `%m` = `1[0-2]|0[1-9]|[1-9]`, `%B` = full month name, case-insensitive,
  a whitespace run in the format = one-or-more whitespace), followed by the
  `datetime` constructor's calendar validity check;
* `int(float(s))` is modelled by exact decimal parsing and truncation
  toward zero (`pyIntOfFloat`); IEEE-754 rounding of the decimal literal
  before truncation, underscore digit separators, and the exact
  overflow-to-infinity threshold are not modelled bit-exactly — none of the
  proved statements depend on them.
-/

set_option maxHeartbeats 1000000

namespace SG

/-- Python's default `str.strip`/`str.split` whitespace class
(`' '`, `'\t'`, `'\n'`, `'\r'`, `'\x0b'`, `'\x0c'`). -/
def pyWhite (c : Char) : Bool :=
  c = ' ' || c = '\t' || c = '\n' || c = '\r' || c = '\x0b' || c = '\x0c'

/-- ASCII lower-casing of one character (model of `str.lower` per char). -/
def pyLowerChar (c : Char) : Char :=
  if 'A' ≤ c ∧ c ≤ 'Z' then Char.ofNat (c.toNat + 32) else c

/-- Model of Python `str.lower` (ASCII). -/
def pyLower (s : String) : String :=
  (s.data.map pyLowerChar).asString

/-- Strip leading and trailing whitespace from a character list. -/
def pyStripL (cs : List Char) : List Char :=
  ((cs.dropWhile pyWhite).reverse.dropWhile pyWhite).reverse

/-- Model of Python `str.strip()` (no arguments). -/
def pyStrip (s : String) : String :=
  (pyStripL s.data).asString

/-- Numeric value of a decimal digit character. -/
def digitVal (c : Char) : Nat := c.toNat - 48

/-- The character for a decimal digit `k ≤ 9`. -/
def digitChar (k : Nat) : Char := Char.ofNat (48 + k)

/-! ## Date parsing (`convert_date_format`)

`storygraph_to_goodreads.py` lines 7–32: try `strptime` with the formats
`"%Y-%m-%d"`, `"%d/%m/%Y"`, `"%B %d, %Y"` in order, reformat a hit as
`"%Y/%m/%d"`; then try `"%Y/%m/%d"` and pass the input through unchanged;
otherwise (or on empty/whitespace-only input) return `""`. -/

/-- Read exactly two decimal digit characters (the two-digit branches of
CPython's `%d`/`%m` regex fragments). -/
def read2Digits : List Char → Option (Nat × List Char)
  | a :: b :: rest =>
    if a.isDigit ∧ b.isDigit then some (10 * digitVal a + digitVal b, rest) else none
  | _ => none

/-- Read exactly one decimal digit character. -/
def read1Digit : List Char → Option (Nat × List Char)
  | a :: rest => if a.isDigit then some (digitVal a, rest) else none
  | _ => none

/-- Read exactly four decimal digits: CPython's `%Y` fragment `\d\d\d\d`. -/
def read4Digits : List Char → Option (Nat × List Char)
  | a :: b :: c :: d :: rest =>
    if a.isDigit ∧ b.isDigit ∧ c.isDigit ∧ d.isDigit then
      some (1000 * digitVal a + 100 * digitVal b + 10 * digitVal c + digitVal d, rest)
    else none
  | _ => none

/-- Candidate matches of the `%d` fragment `3[01]|[12]\d|0[1-9]|[1-9]`,
in regex alternation priority order (all two-digit branches precede the
one-digit branch). -/
def dayCands (cs : List Char) : List (Nat × List Char) :=
  (match read2Digits cs with
   | some (v, r) => if 1 ≤ v ∧ v ≤ 31 then [(v, r)] else []
   | none => []) ++
  (match read1Digit cs with
   | some (v, r) => if 1 ≤ v ∧ v ≤ 9 then [(v, r)] else []
   | none => [])

/-- Candidate matches of the `%m` fragment `1[0-2]|0[1-9]|[1-9]`. -/
def monthCands (cs : List Char) : List (Nat × List Char) :=
  (match read2Digits cs with
   | some (v, r) => if 1 ≤ v ∧ v ≤ 12 then [(v, r)] else []
   | none => []) ++
  (match read1Digit cs with
   | some (v, r) => if 1 ≤ v ∧ v ≤ 9 then [(v, r)] else []
   | none => [])

/-- Full English month names, lowercase, as matched by `%B` in the C locale. -/
def monthNames : List String :=
  ["january", "february", "march", "april", "may", "june", "july",
   "august", "september", "october", "november", "december"]

/-- Case-insensitive literal match of `pat` (already lowercase) against the
head of `cs`; returns the unconsumed remainder. -/
def matchCI : List Char → List Char → Option (List Char)
  | [], rest => some rest
  | _ :: _, [] => none
  | p :: ps, c :: rest => if pyLowerChar c = p then matchCI ps rest else none

/-- Match one of `names` (lowercased literals) case-insensitively, returning
its 1-based index. English month names share no prefixes, so at most one
matches. -/
def monthMatchAux : List String → Nat → List Char → Option (Nat × List Char)
  | [], _, _ => none
  | n :: ns, i, cs =>
    match matchCI n.data cs with
    | some rest => some (i, rest)
    | none => monthMatchAux ns (i + 1) cs

/-- The `%B` directive: match a full month name, yielding the month number. -/
def monthMatch (cs : List Char) : Option (Nat × List Char) :=
  monthMatchAux monthNames 1 cs

/-- One-or-more whitespace characters: a whitespace run in a `strptime`
format string is compiled to `\s+`. -/
def ws1 : List Char → Option (List Char)
  | c :: rest => if pyWhite c then some ((c :: rest).dropWhile pyWhite) else none
  | [] => none

/-- Syntactic (regex-level) match of `"%Y-%m-%d"` against the whole input. -/
def isoSyn (cs : List Char) : Option (Nat × Nat × Nat) :=
  match read4Digits cs with
  | some (y, c1 :: r1) =>
    if c1 = '-' then
      (monthCands r1).findSome? fun (m, r2) =>
        match r2 with
        | c2 :: r3 =>
          if c2 = '-' then
            (dayCands r3).findSome? fun (d, r4) =>
              if r4 = [] then some (y, m, d) else none
          else none
        | [] => none
    else none
  | _ => none

/-- Syntactic match of `"%d/%m/%Y"` against the whole input. -/
def dmySyn (cs : List Char) : Option (Nat × Nat × Nat) :=
  (dayCands cs).findSome? fun (d, r1) =>
    match r1 with
    | c1 :: r2 =>
      if c1 = '/' then
        (monthCands r2).findSome? fun (m, r3) =>
          match r3 with
          | c2 :: r4 =>
            if c2 = '/' then
              match read4Digits r4 with
              | some (y, r5) => if r5 = [] then some (y, m, d) else none
              | none => none
            else none
          | [] => none
      else none
    | [] => none

/-- Syntactic match of `"%B %d, %Y"` against the whole input. -/
def verbSyn (cs : List Char) : Option (Nat × Nat × Nat) :=
  match monthMatch cs with
  | some (m, r1) =>
    match ws1 r1 with
    | some r2 =>
      (dayCands r2).findSome? fun (d, r3) =>
        match r3 with
        | c1 :: r4 =>
          if c1 = ',' then
            match ws1 r4 with
            | some r5 =>
              (match read4Digits r5 with
               | some (y, r6) => if r6 = [] then some (y, m, d) else none
               | none => none)
            | none => none
          else none
        | [] => none
    | none => none
  | none => none

/-- Syntactic match of `"%Y/%m/%d"` against the whole input. -/
def ymdSlashSyn (cs : List Char) : Option (Nat × Nat × Nat) :=
  match read4Digits cs with
  | some (y, c1 :: r1) =>
    if c1 = '/' then
      (monthCands r1).findSome? fun (m, r2) =>
        match r2 with
        | c2 :: r3 =>
          if c2 = '/' then
            (dayCands r3).findSome? fun (d, r4) =>
              if r4 = [] then some (y, m, d) else none
          else none
        | [] => none
    else none
  | _ => none

/-- Proleptic Gregorian leap year, as used by `datetime`. -/
def isLeap (y : Nat) : Bool :=
  y % 4 = 0 ∧ (y % 100 ≠ 0 ∨ y % 400 = 0)

/-- Days in a month, as validated by the `datetime` constructor. -/
def daysInMonth (y m : Nat) : Nat :=
  if m = 2 then (if isLeap y then 29 else 28)
  else if m = 4 ∨ m = 6 ∨ m = 9 ∨ m = 11 then 30
  else 31

/-- The `datetime(year, month, day)` constructor's acceptance test
(`MINYEAR = 1`, `MAXYEAR = 9999`). -/
def validDate (y m d : Nat) : Bool :=
  1 ≤ y ∧ y ≤ 9999 ∧ 1 ≤ m ∧ m ≤ 12 ∧ 1 ≤ d ∧ d ≤ daysInMonth y m

/-- Model of `strptime` for one format: the regex must match the whole string and the
matched numbers must form a constructible date (otherwise `ValueError`). -/
def tryFormat (syn : List Char → Option (Nat × Nat × Nat)) (cs : List Char) :
    Option (Nat × Nat × Nat) :=
  match syn cs with
  | some (y, m, d) => if validDate y m d then some (y, m, d) else none
  | none => none

/-- Four decimal digits, zero-padded (the shape required of `%Y` on input,
and printed for years ≥ 1000). -/
def pad4 (y : Nat) : List Char :=
  [digitChar (y / 1000), digitChar (y / 100 % 10), digitChar (y / 10 % 10), digitChar (y % 10)]

/-- Two digits, `%m`/`%d` zero-padded to two digits, as printed by `strftime`. -/
def pad2 (n : Nat) : List Char :=
  [digitChar (n / 10), digitChar (n % 10)]

/-- The year as printed by `%Y` in CPython's `strftime` on glibc: the year as a plain
decimal number, NOT zero-padded (`datetime(1, 2, 3).strftime("%Y/%m/%d")`
is `"1/02/03"`), checked against CPython on Linux. Exact for the whole
`datetime` year domain `1 ≤ y ≤ 9999`. -/
def yearChars (y : Nat) : List Char :=
  if y < 10 then [digitChar y]
  else if y < 100 then [digitChar (y / 10), digitChar (y % 10)]
  else if y < 1000 then [digitChar (y / 100), digitChar (y / 10 % 10), digitChar (y % 10)]
  else pad4 y

/-- Model of `dt.strftime("%Y/%m/%d")`: the Goodreads date rendering. -/
def formatGR (y m d : Nat) : String :=
  (yearChars y ++ '/' :: (pad2 m ++ '/' :: pad2 d)).asString

/-- Model of `convert_date_format` (`storygraph_to_goodreads.py` lines 7–32). -/
def convert_date_format (s : String) : String :=
  if s.data.all pyWhite then ""
  else
    match tryFormat isoSyn s.data with
    | some (y, m, d) => formatGR y m d
    | none =>
      match tryFormat dmySyn s.data with
      | some (y, m, d) => formatGR y m d
      | none =>
        match tryFormat verbSyn s.data with
        | some (y, m, d) => formatGR y m d
        | none =>
          match tryFormat ymdSlashSyn s.data with
          | some _ => s
          | none => ""

/-! ### Canonical input renderings of the four date patterns

Used to state, for all calendar dates, how `convert_date_format` treats a
string written in each of the accepted patterns (with the usual zero-padded
day/month and four-digit year, as in the spec's examples). -/

/-- Capitalized full month names, as in the spec's `"March 15, 2024"`. -/
def monthNamesCap : List String :=
  ["January", "February", "March", "April", "May", "June", "July",
   "August", "September", "October", "November", "December"]

/-- A date written as `YYYY-MM-DD`. -/
def isoInput (y m d : Nat) : String :=
  (pad4 y ++ '-' :: (pad2 m ++ '-' :: pad2 d)).asString

/-- A date written as `DD/MM/YYYY`. -/
def dmyInput (y m d : Nat) : String :=
  (pad2 d ++ '/' :: (pad2 m ++ '/' :: pad4 y)).asString

/-- A date written as `Month DD, YYYY`. -/
def verbInput (y m d : Nat) : String :=
  ((monthNamesCap.getD (m - 1) "").data ++ ' ' :: (pad2 d ++ ',' :: ' ' :: pad4 y)).asString

/-- A date written as `YYYY/MM/DD` (the Goodreads shape, 4-digit year). -/
def grInput (y m d : Nat) : String :=
  (pad4 y ++ '/' :: (pad2 m ++ '/' :: pad2 d)).asString

/-! ## Numeric cell parsing (`convert_rating`, read count)

`int(float(s))` is modelled by `pyIntOfFloat`: parse the Python float
literal grammar (optional surrounding whitespace, optional sign,
`digits[.digits][exponent]` / `.digits[exponent]`, or `inf`/`infinity`/
`nan`), then truncate the exact decimal value toward zero. `int()` of
`nan`/`inf` raises in Python, hence `none` there; overflow of the decimal
literal to `inf` is modelled by the `2^1024` magnitude threshold of IEEE
binary64. Exact binary64 rounding before truncation and PEP-515 underscore
separators are not modelled; no statement below depends on them. -/

/-- Read a maximal run of decimal digits: value, digit count, rest. -/
def digitsRun : List Char → Nat → Nat → Nat × Nat × List Char
  | c :: rest, acc, n =>
    if c.isDigit then digitsRun rest (10 * acc + digitVal c) (n + 1) else (acc, n, c :: rest)
  | [], acc, n => (acc, n, [])

/-- Optional leading sign; returns (isNegative, rest). -/
def parseSign : List Char → Bool × List Char
  | '+' :: rest => (false, rest)
  | '-' :: rest => (true, rest)
  | cs => (false, cs)

/-- Truncation toward zero of `±mant × 10 ^ (exp - fracLen)`, or `none` on
overflow past the binary64 range (Python: the literal reads as `inf` and
`int(inf)` raises `OverflowError`). -/
def floatTrunc (neg : Bool) (mant fracLen : Nat) (exp : Int) : Option Int :=
  let e : Int := exp - fracLen
  let t : Nat := if 0 ≤ e then mant * 10 ^ e.toNat else mant / 10 ^ (-e).toNat
  if 2 ^ 1024 ≤ t then none
  else some (if neg then -(t : Int) else (t : Int))

/-- Model of Python `int(float(s))`: `some` of the truncated integer, or
`none` when the conversion raises. -/
def pyIntOfFloat (s : String) : Option Int :=
  let cs := pyStripL s.data
  let (neg, r0) := parseSign cs
  let low := r0.map pyLowerChar
  if low = "inf".data ∨ low = "infinity".data ∨ low = "nan".data then none
  else
    let (ip, ipLen, r1) := digitsRun r0 0 0
    let (fp, fpLen, r2) :=
      match r1 with
      | '.' :: r1' => digitsRun r1' 0 0
      | _ => (0, 0, r1)
    if ipLen + fpLen = 0 then none
    else
      let mant := ip * 10 ^ fpLen + fp
      match r2 with
      | [] => floatTrunc neg mant fpLen 0
      | e :: r3 =>
        if e = 'e' ∨ e = 'E' then
          let (eneg, r4) := parseSign r3
          let (ev, eLen, r5) := digitsRun r4 0 0
          if eLen = 0 ∨ r5 ≠ [] then none
          else floatTrunc neg mant fpLen (if eneg then -(ev : Int) else (ev : Int))
        else none

/-- Python `str(int)`. -/
def intStr (z : Int) : String :=
  if z < 0 then "-" ++ Nat.repr z.natAbs else Nat.repr z.natAbs

/-- Substring test (Python's `in` operator on strings). -/
def containsL (pat : List Char) : List Char → Bool
  | [] => decide (pat = [])
  | c :: rest => pat.isPrefixOf (c :: rest) || containsL pat rest

/-- Model of `s.split()[0]`: first whitespace-separated token. Callers ensure `s`
has a non-whitespace character (Python would raise `IndexError` otherwise);
on all-whitespace input this returns `""`. -/
def firstToken (s : String) : String :=
  ((s.data.dropWhile pyWhite).takeWhile (fun c => !pyWhite c)).asString

/-- Model of `convert_rating` (`storygraph_to_goodreads.py` lines 53–66). -/
def convert_rating (rating : String) : String :=
  if pyStrip rating = "" then "0"
  else if containsL "stars".data (pyLower rating).data
       || containsL "star".data (pyLower rating).data then
    match pyIntOfFloat (firstToken rating) with
    | some z => intStr z
    | none => "0"
  else
    match pyIntOfFloat rating with
    | some z => intStr z
    | none => "0"

/-- The `try` body of the read-count fix-up (`storygraph_to_goodreads.py`
lines 204–207): `str(max(0, int(float(v))))`, `"0"` on failure. -/
def convert_read_count (v : String) : String :=
  match pyIntOfFloat v with
  | some z => intStr (max 0 z)
  | none => "0"

/-- Model of `map_reading_status` (`storygraph_to_goodreads.py` lines 35–50). -/
def map_reading_status (status : String) : String :=
  if status = "" then "to-read"
  else
    let s := pyStrip (pyLower status)
    if s = "read" then "read"
    else if s = "currently-reading" then "currently-reading"
    else if s = "currently reading" then "currently-reading"
    else if s = "to-read" then "to-read"
    else if s = "to read" then "to-read"
    else if s = "to-read pile" then "to-read"
    else if s = "dnf" then "abandoned"
    else "to-read"

/-! ## The Format Converter row transform (`convert_csv`)

A `csv.DictReader` row is an association list in header order with
distinct keys; the Goodreads output row is a total function from column
name to the cell that `csv.DictWriter` writes for it (`DictWriter` fills
`restval = ''` for the two mapped-only columns, `Title` and `Author`,
absent from the defaults dict). -/

/-- A CSV row: column name ↦ cell value, in header order. -/
abbrev Row := List (String × String)

/-- Model of `row.get(k, '')`. -/
def rowGet (r : Row) (k : String) : String := (List.lookup k r).getD ""

/-- Dictionary update of one field of the output row. -/
def setF (g : String → String) (k v : String) : String → String :=
  fun f => if f = k then v else g f

/-- The literal `goodreads_fieldnames` list (`storygraph_to_goodreads.py` lines 124–131). -/
def goodreads_fieldnames : List String :=
  ["Book Id", "Title", "Author", "Author l-f", "Additional Authors",
   "ISBN", "ISBN13", "My Rating", "Average Rating", "Publisher",
   "Binding", "Number of Pages", "Year Published", "Original Publication Year",
   "Date Read", "Date Added", "Bookshelves", "Bookshelves with positions",
   "Exclusive Shelf", "My Review", "Spoiler", "Private Notes",
   "Read Count", "Owned Copies"]

/-- The `field_mapping` dict (`storygraph_to_goodreads.py` lines 78–90). -/
def field_mapping (f : String) : Option String :=
  if f = "Title" then some "Title"
  else if f = "Authors" then some "Author"
  else if f = "ISBN/UID" then some "ISBN13"
  else if f = "Format" then some "Binding"
  else if f = "Read Status" then some "Exclusive Shelf"
  else if f = "Date Added" then some "Date Added"
  else if f = "Last Date Read" then some "Date Read"
  else if f = "Read Count" then some "Read Count"
  else if f = "Star Rating" then some "My Rating"
  else if f = "Review" then some "My Review"
  else if f = "Tags" then some "Bookshelves"
  else none

/-- The `default_values` dict (`storygraph_to_goodreads.py` lines 93–116), extended
by `DictWriter`'s `restval = ''` for the two columns (`Title`, `Author`)
that the defaults dict does not contain. -/
def default_values (f : String) : String :=
  if f = "Book Id" then ""
  else if f = "Author l-f" then ""
  else if f = "Additional Authors" then ""
  else if f = "ISBN" then "=\"\"\"\""
  else if f = "ISBN13" then "=\"\"\"\""
  else if f = "My Rating" then "0"
  else if f = "Average Rating" then ""
  else if f = "Publisher" then ""
  else if f = "Binding" then ""
  else if f = "Number of Pages" then ""
  else if f = "Year Published" then ""
  else if f = "Original Publication Year" then ""
  else if f = "Date Read" then ""
  else if f = "Date Added" then ""
  else if f = "Bookshelves" then ""
  else if f = "Bookshelves with positions" then ""
  else if f = "Exclusive Shelf" then "to-read"
  else if f = "My Review" then ""
  else if f = "Spoiler" then ""
  else if f = "Private Notes" then ""
  else if f = "Read Count" then "0"
  else if f = "Owned Copies" then "0"
  else ""

/-- Model of `read_status_value = row.get("Read Status", "").strip()` followed by
`map_reading_status` (lines 156–157). -/
def mapped_status (r : Row) : String :=
  map_reading_status (pyStrip (rowGet r "Read Status"))

/-- The body of one field-mapping loop iteration (lines 169–192), once the
destination field `gr` has been resolved; `sv` is the source cell value. -/
def applyFieldGr (status : String) (g : String → String) (sv gr : String) :
    String → String :=
  if gr ∈ goodreads_fieldnames ∧ gr ≠ "Exclusive Shelf" then
    if gr = "Date Added" then
      setF g "Date Added"
        (if convert_date_format sv = "" then "2025/01/01" else convert_date_format sv)
    else if gr = "Date Read" then
      if status = "read" ∧ convert_date_format sv ≠ "" then
        setF g "Date Read" (convert_date_format sv)
      else g
    else if gr = "My Rating" then setF g "My Rating" (convert_rating sv)
    else if gr = "ISBN13" then
      if sv.data.filter Char.isDigit ≠ [] then
        if (sv.data.filter Char.isDigit).length = 10 then
          setF (setF g "ISBN"
            ("=\"\"" ++ (sv.data.filter Char.isDigit).asString ++ "\"\"")) "ISBN13" "=\"\"=\"\""
        else if (sv.data.filter Char.isDigit).length = 13 then
          setF (setF g "ISBN13"
            ("=\"\"" ++ (sv.data.filter Char.isDigit).asString ++ "\"\"")) "ISBN" "=\"\"=\"\""
        else g
      else g
    else setF g gr sv
  else g

/-- One iteration of the field-mapping loop (lines 167–192) applied to the
output row `g` for source cell `p`. -/
def applyField (status : String) (g : String → String) (p : String × String) :
    String → String :=
  match field_mapping p.1 with
  | none => g
  | some gr => applyFieldGr status g p.2 gr

/-- Model of `' '.join(parts)`. -/
def joinSpace (parts : List String) : String := String.intercalate " " parts

/-- Python `str.split()` with no separator: split on whitespace runs,
dropping empty tokens. -/
def pySplitWsAux : List Char → List Char → List String
  | [], acc => if acc = [] then [] else [acc.reverse.asString]
  | c :: rest, acc =>
    if pyWhite c then
      if acc = [] then pySplitWsAux rest []
      else acc.reverse.asString :: pySplitWsAux rest []
    else pySplitWsAux rest (c :: acc)

/-- Python `str.split()` with no separator. -/
def pySplitWs (s : String) : List String := pySplitWsAux s.data []

/-- The `Author l-f` fix-up (lines 195–200). -/
def authorLFStep (g : String → String) : String → String :=
  if g "Author" ≠ "" then
    if (pySplitWs (g "Author")).length > 1 then
      setF g "Author l-f"
        (((pySplitWs (g "Author")).getLast?.getD "") ++ ", " ++
          joinSpace (pySplitWs (g "Author")).dropLast)
    else g
  else g

/-- The read-count fix-up (lines 203–207). -/
def readCountStep (r : Row) (g : String → String) : String → String :=
  match List.lookup "Read Count" r with
  | some v => if pyStrip v ≠ "" then setF g "Read Count" (convert_read_count v) else g
  | none => g

/-- The `Owned Copies` step (lines 210–211). -/
def ownedStep (r : Row) (g : String → String) : String → String :=
  match List.lookup "Owned?" r with
  | some v =>
    setF g "Owned Copies"
      (if pyLower v = "yes" ∨ pyLower v = "true" ∨ pyLower v = "y" ∨ pyLower v = "1"
       then "1" else "0")
  | none => g

/-- The whole per-row transform of `convert_csv` (lines 152–217): defaults,
status fields, mapping loop, author/read-count/owned fix-ups, and the final
"double-check" clearing `Date Read` on non-"read" rows (lines 213–215). -/
def convertRow (r : Row) : String → String :=
  let status := mapped_status r
  let g0 := setF (setF (setF default_values "Exclusive Shelf" status)
    "Bookshelves" status) "Bookshelves with positions" (status ++ " (#1)")
  let g1 := r.foldl (applyField status) g0
  let g4 := ownedStep r (readCountStep r (authorLFStep g1))
  if status ≠ "read" then setF g4 "Date Read" "" else g4

/-- The data rows that `csv.DictWriter` writes: for each source row, the
cells of the transformed row in `goodreads_fieldnames` order. -/
def convert_csv_rows (rows : List Row) : List (List String) :=
  rows.map (fun r => goodreads_fieldnames.map (convertRow r))

/-- The whole output file of `convert_csv`: the fixed header written by
`writeheader()` followed by the data rows. -/
def convert_csv_output (rows : List Row) : List (List String) :=
  goodreads_fieldnames :: convert_csv_rows rows

/-! ## The Duplicate Filter (`compare_csv.py`) -/

/-- Model of `find_column_name` (`compare_csv.py` lines 127–135). -/
def find_column_name (headers possible : List String) : Option String :=
  possible.find? (fun n => headers.contains n)

/-- Remove every occurrence of `pat` from `cs`, scanning left to right and
continuing after each removed occurrence — Python `str.replace(pat, '')`.
The fuel (initially the list length, enough for any non-empty pattern)
makes the recursion structural. -/
def removeAllFuel (pat : List Char) : Nat → List Char → List Char
  | 0, cs => cs
  | _ + 1, [] => []
  | n + 1, c :: cs =>
    if pat ≠ [] ∧ pat.isPrefixOf (c :: cs) then
      removeAllFuel pat n (List.drop pat.length (c :: cs))
    else c :: removeAllFuel pat n cs

/-- Python `s.replace(pat, '')` for non-empty `pat`. -/
def removeAllS (pat s : String) : String :=
  (removeAllFuel pat.data s.data.length s.data).asString

/-- Model of `.strip().lower()`: the title/author normalization. -/
def normTA (s : String) : String := pyLower (pyStrip s)

/-- The ISBN normalization:
`.strip().replace('-', '').replace('="', '').replace('"', '')`. -/
def normIsbn (s : String) : String :=
  removeAllS "\"" (removeAllS "=\"" (removeAllS "-" (pyStrip s)))

/-- The normalized title of a row: `row.get(title_col, '').strip().lower()`. -/
def rowTitle (tc : String) (r : Row) : String := normTA (rowGet r tc)

/-- The normalized author (`''` when no author column was resolved). -/
def rowAuthor (ac : Option String) (r : Row) : String :=
  match ac with
  | some c => normTA (rowGet r c)
  | none => ""

/-- The normalized ISBN (`''` when no ISBN column was resolved). -/
def rowIsbn (ic : Option String) (r : Row) : String :=
  match ic with
  | some c => normIsbn (rowGet r c)
  | none => ""

/-- One iteration of the key-collection loop over the existing catalog
(`compare_csv.py` lines 55–85): add the non-empty ISBN key, then the
title+author key (author present) or the bare title key. -/
def existingStep (tc : String) (ac ic : Option String) (acc : List String)
    (r : Row) : List String :=
  (if rowIsbn ic r ≠ "" then acc ++ [rowIsbn ic r] else acc) ++
    (if rowAuthor ac r ≠ "" then [rowTitle tc r ++ "|" ++ rowAuthor ac r]
     else [rowTitle tc r])

/-- The identity-key set built from the existing catalog
(`compare_csv.py` lines 52–85), as a list used only for membership. -/
def existing_books (tc : String) (ac ic : Option String) (rows : List Row) :
    List String :=
  rows.foldl (existingStep tc ac ic) []

/-- Boolean membership in the key set. -/
def memB (x : String) (l : List String) : Bool := l.any (fun y => y = x)

/-- The duplicate classification of one new-catalog row
(`compare_csv.py` lines 94–112). -/
def is_dup (books : List String) (tc : String) (ac ic : Option String) (r : Row) :
    Bool :=
  if rowIsbn ic r ≠ "" ∧ memB (rowIsbn ic r) books then true
  else if rowAuthor ac r ≠ "" ∧
      memB (rowTitle tc r ++ "|" ++ rowAuthor ac r) books then true
  else if memB (rowTitle tc r) books then true
  else false

/-- Model of `compare_storygraph_libraries` on in-memory catalogs (header + rows for
each file): `none` models the early return when a title column cannot be
resolved; otherwise the output file's header (the new file's) and its
filtered rows. -/
def compare_storygraph_libraries (existingHeader : List String)
    (existingRows : List Row) (newHeader : List String) (newRows : List Row) :
    Option (List String × List Row) :=
  let tce := find_column_name existingHeader ["Title", "title"]
  let ace := find_column_name existingHeader ["Authors", "Author", "authors", "author"]
  let ice := find_column_name existingHeader ["ISBN/UID", "ISBN", "isbn", "ISBN13", "isbn13"]
  let tcn := find_column_name newHeader ["Title", "title"]
  let acn := find_column_name newHeader ["Authors", "Author", "authors", "author"]
  let icn := find_column_name newHeader ["ISBN/UID", "ISBN", "isbn", "ISBN13", "isbn13"]
  match tce, tcn with
  | some te, some tn =>
    let books := existing_books te ace ice existingRows
    some (newHeader, newRows.filter (fun r => !(is_dup books tn acn icn r)))
  | _, _ => none

/-! ## The Chunk Splitter (`split.py`) -/

/-- Ceiling division `math.ceil(total / n)` for `n > 0`. -/
def num_chunks (n total : Nat) : Nat := (total + n - 1) / n

/-- The chunk-writing loop of `split_csv` (lines 47–66): `k` files named
`<prefix>_<i>.csv`, each with the header and the next ≤ `n` rows. -/
def splitCsvAux (p : String) (header : List String) (n : Nat) :
    Nat → Nat → List (List String) → List (String × List String × List (List String))
  | 0, _, _ => []
  | k + 1, i, rows =>
    (p ++ "_" ++ Nat.repr i ++ ".csv", header, rows.take n) ::
      splitCsvAux p header n k (i + 1) (rows.drop n)

/-- Model of `split_csv` (`split.py` lines 27–66) on an in-memory file: the list of
written files (name, header, data rows), in creation order. -/
def split_csv (p : String) (n : Nat) (header : List String)
    (rows : List (List String)) : List (String × List String × List (List String)) :=
  splitCsvAux p header n (num_chunks n rows.length) 1 rows

/-- Model of `row.get('Exclusive Shelf', 'unknown')` (`split.py` line 108). -/
def statusOf (r : Row) : String :=
  (List.lookup "Exclusive Shelf" r).getD "unknown"

/-- Append `r` to the group keyed `s`, creating the group at the end on
first occurrence (the lazy per-status file creation of `split_by_status`). -/
def addToGroups (gs : List (String × List Row)) (s : String) (r : Row) :
    List (String × List Row) :=
  match gs with
  | [] => [(s, [r])]
  | (s', rs) :: tl =>
    if s' = s then (s', rs ++ [r]) :: tl else (s', rs) :: addToGroups tl s r

/-- The per-status groups accumulated over the input rows, keyed by status
in first-occurrence order. -/
def statusGroups (rows : List Row) : List (String × List Row) :=
  rows.foldl (fun gs r => addToGroups gs (statusOf r) r) []

/-- Model of `split_by_status` (`split.py` lines 77–136) on an in-memory file: the
files written, each `(name, header, rows)` with name `<prefix>_<status>.csv`. -/
def split_by_status (p : String) (fieldnames : List String) (rows : List Row) :
    List (String × List String × List Row) :=
  (statusGroups rows).map (fun g => (p ++ "_" ++ g.1 ++ ".csv", fieldnames, g.2))

/-! ## Claim-side (spec-worded) definitions for the C8 refinement

The claim states the Duplicate Filter's key normalization with the ISBN
*lowercased* as well. These definitions follow the claim's words; they are
compared with the source-derived ones above. -/

/-- The ISBN key as the claim words it: lowercased, trimmed, artifact
characters stripped. -/
def claimIsbnKey (s : String) : String := pyLower (normIsbn s)

/-- The claim's ISBN key of a row: lowercased when `lowerIsbn` (the claim
as written), plain otherwise (the amendment). -/
def claimIsbn (lowerIsbn : Bool) (ic : Option String) (r : Row) : String :=
  if lowerIsbn then pyLower (rowIsbn ic r) else rowIsbn ic r

/-- The keys inserted for one existing-catalog row per the claim:
normalized ISBN when non-empty, plus title+author when the author is
non-empty, else the bare title. -/
def claimInsertKeys (lowerIsbn : Bool) (tc : String) (ac ic : Option String) (r : Row) :
    List String :=
  (if claimIsbn lowerIsbn ic r ≠ "" then [claimIsbn lowerIsbn ic r] else []) ++
    (if rowAuthor ac r ≠ "" then [rowTitle tc r ++ "|" ++ rowAuthor ac r]
     else [rowTitle tc r])

/-- The candidate keys checked for one new-catalog row, in the claim's
priority order ISBN > title+author > title (the bare title is always the
last fallback). -/
def claimCheckKeys (lowerIsbn : Bool) (tc : String) (ac ic : Option String) (r : Row) :
    List String :=
  (if claimIsbn lowerIsbn ic r ≠ "" then [claimIsbn lowerIsbn ic r] else []) ++
    (if rowAuthor ac r ≠ "" then [rowTitle tc r ++ "|" ++ rowAuthor ac r] else []) ++
    [rowTitle tc r]

/-- The claim-worded Duplicate Filter: pool the existing rows' keys, keep a
new row unless one of its candidate keys is in the pool. `lowerIsbn`
selects whether the ISBN key is lowercased (the claim as written) or not
(the amendment). -/
def claimCompare (lowerIsbn : Bool) (existingHeader : List String)
    (existingRows : List Row) (newHeader : List String) (newRows : List Row) :
    Option (List String × List Row) :=
  let tce := find_column_name existingHeader ["Title", "title"]
  let ace := find_column_name existingHeader ["Authors", "Author", "authors", "author"]
  let ice := find_column_name existingHeader ["ISBN/UID", "ISBN", "isbn", "ISBN13", "isbn13"]
  let tcn := find_column_name newHeader ["Title", "title"]
  let acn := find_column_name newHeader ["Authors", "Author", "authors", "author"]
  let icn := find_column_name newHeader ["ISBN/UID", "ISBN", "isbn", "ISBN13", "isbn13"]
  match tce, tcn with
  | some te, some tn =>
    let books := existingRows.flatMap (claimInsertKeys lowerIsbn te ace ice)
    some (newHeader,
      newRows.filter (fun r =>
        !((claimCheckKeys lowerIsbn tn acn icn r).any (fun k => memB k books))))
  | _, _ => none

/-! ### Digit-character lemmas -/

lemma data_asString (l : List Char) : (l.asString).data = l := rfl

lemma digitChar_isDigit {k : Nat} (h : k ≤ 9) : (digitChar k).isDigit = true := by
  interval_cases k <;> decide

lemma digitVal_digitChar {k : Nat} (h : k ≤ 9) : digitVal (digitChar k) = k := by
  interval_cases k <;> decide

lemma digitChar_ne_dash {k : Nat} (h : k ≤ 9) : ¬(digitChar k = '-') := by
  interval_cases k <;> decide

lemma digitChar_ne_slash {k : Nat} (h : k ≤ 9) : ¬(digitChar k = '/') := by
  interval_cases k <;> decide

lemma pyWhite_digitChar {k : Nat} (h : k ≤ 9) : pyWhite (digitChar k) = false := by
  interval_cases k <;> decide

lemma pyLowerChar_digitChar {k : Nat} (h : k ≤ 9) : pyLowerChar (digitChar k) = digitChar k := by
  interval_cases k <;> decide

/-! ### Reading rendered digit groups -/

lemma read2Digits_pad2 {n : Nat} (h : n ≤ 99) (rest : List Char) :
    read2Digits (pad2 n ++ rest) = some (n, rest) := by
  have h1 : n / 10 ≤ 9 := by omega
  have h2 : n % 10 ≤ 9 := by omega
  simp [pad2, read2Digits, digitChar_isDigit h1, digitChar_isDigit h2,
        digitVal_digitChar h1, digitVal_digitChar h2]
  omega

lemma read1Digit_pad2 {n : Nat} (h : n ≤ 99) (rest : List Char) :
    read1Digit (pad2 n ++ rest) = some (n / 10, digitChar (n % 10) :: rest) := by
  have h1 : n / 10 ≤ 9 := by omega
  simp [pad2, read1Digit, digitChar_isDigit h1, digitVal_digitChar h1]

lemma read4Digits_pad4 {y : Nat} (h : y ≤ 9999) (rest : List Char) :
    read4Digits (pad4 y ++ rest) = some (y, rest) := by
  have h1 : y / 1000 ≤ 9 := by omega
  have h2 : y / 100 % 10 ≤ 9 := by omega
  have h3 : y / 10 % 10 ≤ 9 := by omega
  have h4 : y % 10 ≤ 9 := by omega
  simp [pad4, read4Digits, digitChar_isDigit h1, digitChar_isDigit h2,
        digitChar_isDigit h3, digitChar_isDigit h4, digitVal_digitChar h1,
        digitVal_digitChar h2, digitVal_digitChar h3, digitVal_digitChar h4]
  omega

/-! ### Candidate lists on rendered two-digit groups -/

lemma dayCands_pad2 {d : Nat} (h1 : 1 ≤ d) (h2 : d ≤ 31) (rest : List Char) :
    ∃ tl, dayCands (pad2 d ++ rest) = (d, rest) :: tl := by
  have hr2 := read2Digits_pad2 (show d ≤ 99 by omega) rest
  refine ⟨(match read1Digit (pad2 d ++ rest) with
           | some (v, r) => if 1 ≤ v ∧ v ≤ 9 then [(v, r)] else []
           | none => []), ?_⟩
  simp [dayCands, hr2, h1, h2]

lemma monthCands_pad2 {m : Nat} (h1 : 1 ≤ m) (h2 : m ≤ 12) (rest : List Char) :
    ∃ tl, monthCands (pad2 m ++ rest) = (m, rest) :: tl := by
  have hr2 := read2Digits_pad2 (show m ≤ 99 by omega) rest
  refine ⟨(match read1Digit (pad2 m ++ rest) with
           | some (v, r) => if 1 ≤ v ∧ v ≤ 9 then [(v, r)] else []
           | none => []), ?_⟩
  simp [monthCands, hr2, h1, h2]

lemma findSome?_cons_of_some {α β : Type} {f : α → Option β} {a : α} {l : List α} {b : β}
    (h : f a = some b) : List.findSome? f (a :: l) = some b := by
  simp [List.findSome?, h]

lemma findSome?_cons_of_none {α β : Type} {f : α → Option β} {a : α} {l : List α}
    (h : f a = none) : List.findSome? f (a :: l) = List.findSome? f l := by
  simp [List.findSome?, h]

lemma daysInMonth_le (y m : Nat) : daysInMonth y m ≤ 31 := by
  unfold daysInMonth
  split_ifs <;> omega

/-! ### Success of each pattern on its canonical rendering -/

lemma isoSyn_render {y m d : Nat} (hy : y ≤ 9999) (hm1 : 1 ≤ m) (hm2 : m ≤ 12)
    (hd1 : 1 ≤ d) (hd2 : d ≤ 31) :
    isoSyn (pad4 y ++ '-' :: (pad2 m ++ '-' :: pad2 d)) = some (y, m, d) := by
  obtain ⟨tlm, hmc⟩ := monthCands_pad2 hm1 hm2 ('-' :: pad2 d)
  obtain ⟨tld, hdc⟩ := dayCands_pad2 hd1 hd2 []
  rw [List.append_nil] at hdc
  simp [isoSyn, read4Digits_pad4 hy, hmc, hdc, List.findSome?]

lemma ymdSlashSyn_render {y m d : Nat} (hy : y ≤ 9999) (hm1 : 1 ≤ m) (hm2 : m ≤ 12)
    (hd1 : 1 ≤ d) (hd2 : d ≤ 31) :
    ymdSlashSyn (pad4 y ++ '/' :: (pad2 m ++ '/' :: pad2 d)) = some (y, m, d) := by
  obtain ⟨tlm, hmc⟩ := monthCands_pad2 hm1 hm2 ('/' :: pad2 d)
  obtain ⟨tld, hdc⟩ := dayCands_pad2 hd1 hd2 []
  rw [List.append_nil] at hdc
  simp [ymdSlashSyn, read4Digits_pad4 hy, hmc, hdc, List.findSome?]

lemma dmySyn_render {y m d : Nat} (hy : y ≤ 9999) (hm1 : 1 ≤ m) (hm2 : m ≤ 12)
    (hd1 : 1 ≤ d) (hd2 : d ≤ 31) :
    dmySyn (pad2 d ++ '/' :: (pad2 m ++ '/' :: pad4 y)) = some (y, m, d) := by
  obtain ⟨tld, hdc⟩ := dayCands_pad2 hd1 hd2 ('/' :: (pad2 m ++ '/' :: pad4 y))
  obtain ⟨tlm, hmc⟩ := monthCands_pad2 hm1 hm2 ('/' :: pad4 y)
  have hr4 : read4Digits (pad4 y) = some (y, []) := by
    have h := read4Digits_pad4 hy ([] : List Char)
    rwa [List.append_nil] at h
  simp [dmySyn, hdc, hmc, hr4, List.findSome?]

lemma verbSyn_render {y m d : Nat} (hy : y ≤ 9999) (hm1 : 1 ≤ m) (hm2 : m ≤ 12)
    (hd1 : 1 ≤ d) (hd2 : d ≤ 31) :
    verbSyn ((monthNamesCap.getD (m - 1) "").data ++ ' ' :: (pad2 d ++ ',' :: ' ' :: pad4 y)) =
      some (y, m, d) := by
  obtain ⟨tld, hdc⟩ := dayCands_pad2 hd1 hd2 (',' :: ' ' :: pad4 y)
  have hr4 : read4Digits (pad4 y) = some (y, []) := by
    have h := read4Digits_pad4 hy ([] : List Char)
    rwa [List.append_nil] at h
  have hwd : pyWhite (digitChar (d / 10)) = false := pyWhite_digitChar (by omega)
  have hwy : pyWhite (digitChar (y / 1000)) = false := pyWhite_digitChar (by omega)
  have hsp : pyWhite ' ' = true := by decide
  simp only [pad2, pad4, List.cons_append, List.nil_append] at hdc hr4
  interval_cases m <;>
    simp [verbSyn, monthMatch, monthNames, monthNamesCap, monthMatchAux, matchCI, pyLowerChar,
          ws1, List.dropWhile_cons, pad2, pad4, hwd, hwy, hsp, hr4, hdc, List.findSome?]

/-! ### Failure of the earlier patterns on later renderings

The formats are attempted in a fixed order, so e.g. the `DD/MM/YYYY` proof
must show that `%Y-%m-%d` rejects such a string first. -/

lemma isoSyn_pad2_slash {d : Nat} (rest : List Char) :
    isoSyn (pad2 d ++ '/' :: rest) = none := by
  cases rest <;>
    simp [isoSyn, pad2, read4Digits, (show ('/' : Char).isDigit = false by decide)]

lemma dmySyn_pad4 {y : Nat} (hy : y ≤ 9999) (rest : List Char) :
    dmySyn (pad4 y ++ rest) = none := by
  have h1 : y / 1000 ≤ 9 := by omega
  have h2 : y / 100 % 10 ≤ 9 := by omega
  have h3 : y / 10 % 10 ≤ 9 := by omega
  simp only [pad4, List.cons_append]
  simp [dmySyn, dayCands, read2Digits, read1Digit, digitChar_isDigit h1, digitChar_isDigit h2]
  intro a b hab
  rcases hab with ⟨-, rfl, rfl⟩ | ⟨-, rfl, rfl⟩ <;>
    simp [digitChar_ne_slash h2, digitChar_ne_slash h3]

lemma verbSyn_digit {k : Nat} (hk : k ≤ 9) (rest : List Char) :
    verbSyn (digitChar k :: rest) = none := by
  have hne : ∀ c ∈ ['j', 'f', 'm', 'a', 's', 'o', 'n', 'd'], digitChar k ≠ c := by
    interval_cases k <;> decide
  simp [verbSyn, monthMatch, monthNames, monthMatchAux, matchCI, pyLowerChar_digitChar hk,
        hne 'j' (by decide), hne 'f' (by decide), hne 'm' (by decide), hne 'a' (by decide),
        hne 's' (by decide), hne 'o' (by decide), hne 'n' (by decide), hne 'd' (by decide)]

lemma isoSyn_pad4_slash {y : Nat} (hy : y ≤ 9999) (rest : List Char) :
    isoSyn (pad4 y ++ '/' :: rest) = none := by
  simp [isoSyn, read4Digits_pad4 hy, (show ¬(('/' : Char) = '-') by decide)]

/-! ### `convert_date_format` on each canonical rendering -/

lemma validDate_bounds {y m d : Nat} (hv : validDate y m d = true) :
    1 ≤ y ∧ y ≤ 9999 ∧ 1 ≤ m ∧ m ≤ 12 ∧ 1 ≤ d ∧ d ≤ 31 := by
  simp only [validDate, Bool.and_eq_true, decide_eq_true_eq] at hv
  obtain ⟨h1, h2, h3, h4, h5, h6⟩ := hv
  exact ⟨h1, h2, h3, h4, h5, le_trans h6 (daysInMonth_le y m)⟩

lemma all_pyWhite_pad4 {y : Nat} (hy : y ≤ 9999) (rest : List Char) :
    (pad4 y ++ rest).all pyWhite = false := by
  simp [pad4, pyWhite_digitChar (show y / 1000 ≤ 9 by omega)]

lemma all_pyWhite_pad2 {d : Nat} (hd : d ≤ 99) (rest : List Char) :
    (pad2 d ++ rest).all pyWhite = false := by
  simp [pad2, pyWhite_digitChar (show d / 10 ≤ 9 by omega)]

lemma convert_isoInput {y m d : Nat} (hv : validDate y m d = true) :
    convert_date_format (isoInput y m d) = formatGR y m d := by
  obtain ⟨hy1, hy2, hm1, hm2, hd1, hd2⟩ := validDate_bounds hv
  unfold convert_date_format isoInput
  rw [data_asString, all_pyWhite_pad4 hy2]
  simp [tryFormat, isoSyn_render hy2 hm1 hm2 hd1 hd2, hv]

lemma convert_dmyInput {y m d : Nat} (hv : validDate y m d = true) :
    convert_date_format (dmyInput y m d) = formatGR y m d := by
  obtain ⟨hy1, hy2, hm1, hm2, hd1, hd2⟩ := validDate_bounds hv
  unfold convert_date_format dmyInput
  rw [data_asString, all_pyWhite_pad2 (by omega)]
  simp [tryFormat, isoSyn_pad2_slash, dmySyn_render hy2 hm1 hm2 hd1 hd2, hv]

lemma convert_verbInput {y m d : Nat} (hv : validDate y m d = true) :
    convert_date_format (verbInput y m d) = formatGR y m d := by
  obtain ⟨hy1, hy2, hm1, hm2, hd1, hd2⟩ := validDate_bounds hv
  have hverb := verbSyn_render hy2 hm1 hm2 hd1 hd2
  have hlet : ∀ c ∈ ['J', 'F', 'M', 'A', 'S', 'O', 'N', 'D'], c.isDigit = false := by decide
  have hiso : isoSyn ((monthNamesCap.getD (m - 1) "").data ++
      ' ' :: (pad2 d ++ ',' :: ' ' :: pad4 y)) = none := by
    interval_cases m <;>
      simp [monthNamesCap, isoSyn, read4Digits, hlet 'J' (by decide), hlet 'F' (by decide),
            hlet 'M' (by decide), hlet 'A' (by decide), hlet 'S' (by decide),
            hlet 'O' (by decide), hlet 'N' (by decide), hlet 'D' (by decide)]
  have hdmy : dmySyn ((monthNamesCap.getD (m - 1) "").data ++
      ' ' :: (pad2 d ++ ',' :: ' ' :: pad4 y)) = none := by
    interval_cases m <;>
      simp [monthNamesCap, dmySyn, dayCands, read2Digits, read1Digit, List.findSome?,
            hlet 'J' (by decide), hlet 'F' (by decide), hlet 'M' (by decide),
            hlet 'A' (by decide), hlet 'S' (by decide), hlet 'O' (by decide),
            hlet 'N' (by decide), hlet 'D' (by decide)]
  have hall : ((monthNamesCap.getD (m - 1) "").data ++
      ' ' :: (pad2 d ++ ',' :: ' ' :: pad4 y)).all pyWhite = false := by
    interval_cases m <;> simp [monthNamesCap, pyWhite]
  unfold convert_date_format verbInput
  rw [data_asString, hall]
  simp only [List.getD_eq_getElem?_getD] at hiso hdmy hverb
  simp [tryFormat, hiso, hdmy, hverb, hv]

lemma convert_grInput {y m d : Nat} (hv : validDate y m d = true) :
    convert_date_format (grInput y m d) = grInput y m d := by
  obtain ⟨hy1, hy2, hm1, hm2, hd1, hd2⟩ := validDate_bounds hv
  have hverb : verbSyn (pad4 y ++ '/' :: (pad2 m ++ '/' :: pad2 d)) = none := by
    simp only [pad4, List.cons_append]
    exact verbSyn_digit (show y / 1000 ≤ 9 by omega) _
  unfold convert_date_format grInput
  rw [data_asString, all_pyWhite_pad4 hy2]
  simp [tryFormat, isoSyn_pad4_slash hy2, dmySyn_pad4 hy2, hverb,
        ymdSlashSyn_render hy2 hm1 hm2 hd1 hd2, hv]

lemma formatGR_of_ge_1000 {y m d : Nat} (hy1 : 1000 ≤ y) :
    formatGR y m d = grInput y m d := by
  unfold formatGR grInput yearChars
  rw [if_neg (by omega), if_neg (by omega), if_neg (by omega)]

/-! ## Claim C2: the date transcoding function -/

/-- C2 counterexample: `"0001-02-03"` matches the ISO source pattern
(`%Y` reads exactly four digits), but `strftime("%Y...")` prints the year
without zero-padding, so the result is `"1/02/03"`, not the claimed
`YYYY/MM/DD` rendering `"0001/02/03"`. -/
theorem c2_counterexample :
    convert_date_format "0001-02-03" = "1/02/03" ∧
      ("1/02/03" : String) ≠ "0001/02/03" := by
  constructor
  · decide
  · decide

/-- C2 (amended): a string in any of the three source patterns
(ISO `YYYY-MM-DD`, `DD/MM/YYYY`, verbose `Month DD, YYYY`) converts to the
same date as `year/MM/DD` with the year printed unpadded — identical to the
claimed `YYYY/MM/DD` rendering for every year ≥ 1000, as in all the spec's
examples; a string already in `YYYY/MM/DD` format is returned unchanged;
empty and unparseable inputs yield `""`. -/
theorem c2_amended_date_transcoding :
    (∀ y m d : Nat, validDate y m d = true →
      convert_date_format (isoInput y m d) = formatGR y m d ∧
      convert_date_format (dmyInput y m d) = formatGR y m d ∧
      convert_date_format (verbInput y m d) = formatGR y m d ∧
      convert_date_format (grInput y m d) = grInput y m d ∧
      (1000 ≤ y → formatGR y m d = grInput y m d)) ∧
    convert_date_format "2024-03-15" = "2024/03/15" ∧
    convert_date_format "15/03/2024" = "2024/03/15" ∧
    convert_date_format "March 15, 2024" = "2024/03/15" ∧
    convert_date_format "not a date" = "" ∧
    convert_date_format "" = "" := by
  refine ⟨fun y m d hv =>
    ⟨convert_isoInput hv, convert_dmyInput hv, convert_verbInput hv,
     convert_grInput hv, fun hy => formatGR_of_ge_1000 hy⟩, ?_, ?_, ?_, ?_, ?_⟩ <;> decide

/-- Witness for C2 (amended) at the spec's own example date. -/
theorem c2_amended_witness :
    validDate 2024 3 15 = true ∧
      convert_date_format (isoInput 2024 3 15) = formatGR 2024 3 15 :=
  ⟨by decide, (c2_amended_date_transcoding.1 2024 3 15 (by decide)).1⟩

/-! ## Claim C9: transcoding functions are total with safe defaults -/

lemma validDate_of_tryFormat {syn : List Char → Option (Nat × Nat × Nat)}
    {cs : List Char} {y m d : Nat} (h : tryFormat syn cs = some (y, m, d)) :
    validDate y m d = true := by
  unfold tryFormat at h
  cases hs : syn cs with
  | none => rw [hs] at h; exact absurd h (by simp)
  | some t =>
    obtain ⟨y', m', d'⟩ := t
    rw [hs] at h
    by_cases hv : validDate y' m' d' = true
    · simp only [hv, if_true] at h
      obtain ⟨rfl, rfl, rfl⟩ := by simpa using h
      exact hv
    · simp [hv] at h

/-- C9: every per-value transcoding function returns a safe value on every
possible string input (totality is by construction; the value is always of
the stated shape): `convert_rating` always returns the decimal string of an
integer (so `"0"` on malformed input, by the same match), the read-count
parser always returns the decimal string of a natural number, and
`convert_date_format` returns `""` or a value derived from a really valid
date (a `strftime` rendering or the unchanged already-formatted input). -/
theorem c9_transcoding_safe_defaults :
    (∀ s : String, ∃ z : Int, convert_rating s = intStr z) ∧
    (∀ s : String, ∃ n : Nat, convert_read_count s = intStr (n : Int)) ∧
    (∀ s : String, convert_date_format s = "" ∨
      ∃ y m d : Nat, validDate y m d = true ∧
        (convert_date_format s = formatGR y m d ∨ convert_date_format s = s)) := by
  refine ⟨fun s => ?_, fun s => ?_, fun s => ?_⟩
  · unfold convert_rating
    split_ifs with h1 h2
    · exact ⟨0, by decide⟩
    · cases h : pyIntOfFloat (firstToken s) with
      | some z => exact ⟨z, rfl⟩
      | none => exact ⟨0, by decide⟩
    · cases h : pyIntOfFloat s with
      | some z => exact ⟨z, rfl⟩
      | none => exact ⟨0, by decide⟩
  · unfold convert_read_count
    cases h : pyIntOfFloat s with
    | some z =>
      refine ⟨(max 0 z).toNat, ?_⟩
      rw [Int.toNat_of_nonneg (le_max_left 0 z)]
    | none => exact ⟨0, by decide⟩
  · unfold convert_date_format
    split_ifs with h0
    · exact Or.inl rfl
    cases h1 : tryFormat isoSyn s.data with
    | some t =>
      obtain ⟨y, m, d⟩ := t
      exact Or.inr ⟨y, m, d, validDate_of_tryFormat h1, Or.inl rfl⟩
    | none =>
      cases h2 : tryFormat dmySyn s.data with
      | some t =>
        obtain ⟨y, m, d⟩ := t
        exact Or.inr ⟨y, m, d, validDate_of_tryFormat h2, Or.inl rfl⟩
      | none =>
        cases h3 : tryFormat verbSyn s.data with
        | some t =>
          obtain ⟨y, m, d⟩ := t
          exact Or.inr ⟨y, m, d, validDate_of_tryFormat h3, Or.inl rfl⟩
        | none =>
          cases h4 : tryFormat ymdSlashSyn s.data with
          | some t =>
            obtain ⟨y, m, d⟩ := t
            exact Or.inr ⟨y, m, d, validDate_of_tryFormat h4, Or.inr rfl⟩
          | none => exact Or.inl rfl

/-! ## Row-transform lemmas for the Format Converter -/

lemma setF_same (g : String → String) (k v : String) : setF g k v k = v := by
  simp [setF]

lemma setF_other (g : String → String) (k v f : String) (h : f ≠ k) :
    setF g k v f = g f := by
  simp [setF, h]

lemma field_mapping_date_read {f : String} (h : field_mapping f = some "Date Read") :
    f = "Last Date Read" := by
  unfold field_mapping at h
  split_ifs at h <;> first | assumption | simp at h

lemma field_mapping_isbn13 {f : String} (h : field_mapping f = some "ISBN13") :
    f = "ISBN/UID" := by
  unfold field_mapping at h
  split_ifs at h <;> first | assumption | simp at h

lemma field_mapping_ne_isbn {f gr : String} (h : field_mapping f = some gr) :
    gr ≠ "ISBN" := by
  intro hcontra
  subst hcontra
  unfold field_mapping at h
  split_ifs at h <;> simp at h

lemma applyFieldGr_ES (st : String) (g : String → String) (sv gr : String) :
    applyFieldGr st g sv gr "Exclusive Shelf" = g "Exclusive Shelf" := by
  unfold applyFieldGr
  split_ifs with hc hda hdae hdr hrdc hmr hi13 hne h10 h13 <;>
    first
      | rfl
      | exact setF_other _ _ _ _ (by decide)
      | exact (setF_other _ _ _ _ (by decide)).trans (setF_other _ _ _ _ (by decide))
      | exact setF_other _ _ _ _ (Ne.symm hc.2)

/-- The mapping loop never writes `Exclusive Shelf` (the loop body skips
that destination explicitly). -/
lemma applyField_ES (st : String) (g : String → String) (p : String × String) :
    applyField st g p "Exclusive Shelf" = g "Exclusive Shelf" := by
  unfold applyField
  cases hm : field_mapping p.1 with
  | none => rfl
  | some gr => exact applyFieldGr_ES st g p.2 gr

lemma loop_ES (st : String) (l : Row) (g : String → String) :
    (l.foldl (applyField st) g) "Exclusive Shelf" = g "Exclusive Shelf" := by
  induction l generalizing g with
  | nil => rfl
  | cons p l ih => rw [List.foldl_cons, ih, applyField_ES]

lemma applyFieldGr_DR (st : String) (g : String → String) (sv gr : String) :
    applyFieldGr st g sv gr "Date Read" = g "Date Read" ∨
      (gr = "Date Read" ∧ st = "read" ∧ convert_date_format sv ≠ "") := by
  unfold applyFieldGr
  split_ifs with hc hda hdae hdr hrdc hmr hi13 hne h10 h13 <;>
    first
      | exact Or.inl rfl
      | exact Or.inr ⟨hdr, hrdc.1, hrdc.2⟩
      | exact Or.inl (setF_other _ _ _ _ (by decide))
      | exact Or.inl
          ((setF_other _ _ _ _ (by decide)).trans (setF_other _ _ _ _ (by decide)))
      | exact Or.inl (setF_other _ _ _ _ (Ne.symm hdr))

/-- One loop step either leaves `Date Read` alone or sets it from a source
field mapped to `Date Read`, and then only on a "read" row with a
non-empty converted date. -/
lemma applyField_DR (st : String) (g : String → String) (p : String × String) :
    applyField st g p "Date Read" = g "Date Read" ∨
      (field_mapping p.1 = some "Date Read" ∧ st = "read" ∧
        convert_date_format p.2 ≠ "") := by
  unfold applyField
  cases hm : field_mapping p.1 with
  | none => exact Or.inl rfl
  | some gr =>
    rcases applyFieldGr_DR st g p.2 gr with h | ⟨hgr, hst, hne⟩
    · exact Or.inl h
    · exact Or.inr ⟨by rw [hgr], hst, hne⟩

lemma loop_DR (st : String) (l : Row) (g : String → String) :
    (l.foldl (applyField st) g) "Date Read" = g "Date Read" ∨
      ∃ p ∈ l, field_mapping p.1 = some "Date Read" ∧ st = "read" ∧
        convert_date_format p.2 ≠ "" := by
  induction l generalizing g with
  | nil => exact Or.inl rfl
  | cons p l ih =>
    rw [List.foldl_cons]
    rcases ih (applyField st g p) with h | ⟨q, hq, hmap⟩
    · rcases applyField_DR st g p with h2 | ⟨hm, hst, hne⟩
      · exact Or.inl (by rw [h, h2])
      · exact Or.inr ⟨p, List.mem_cons_self p l, hm, hst, hne⟩
    · exact Or.inr ⟨q, List.mem_cons_of_mem p hq, hmap⟩

lemma authorLF_preserves (g : String → String) (f : String) (h : f ≠ "Author l-f") :
    authorLFStep g f = g f := by
  unfold authorLFStep
  split_ifs <;> simp [setF, h]

lemma readCount_preserves (r : Row) (g : String → String) (f : String)
    (h : f ≠ "Read Count") : readCountStep r g f = g f := by
  unfold readCountStep
  cases List.lookup "Read Count" r with
  | none => rfl
  | some v =>
    show (if pyStrip v ≠ "" then setF g "Read Count" (convert_read_count v) else g) f = g f
    split_ifs <;> simp [setF, h]

lemma owned_preserves (r : Row) (g : String → String) (f : String)
    (h : f ≠ "Owned Copies") : ownedStep r g f = g f := by
  unfold ownedStep
  cases List.lookup "Owned?" r with
  | none => rfl
  | some v => exact setF_other _ _ _ _ h

/-! ## Claim C1: `Date Read` is non-empty only on "read" rows -/

/-- C1: for every input row, (a) a non-empty output `Date Read` forces the
output `Exclusive Shelf` to be exactly `"read"`; (b) when the mapped status
is not `"read"` the written `Date Read` cell is the empty string (the final
double-check pass guarantees this); (c) on a `"read"` row the cell is
non-empty only if the source `Last Date Read` value converted to a
non-empty date. -/
theorem c1_date_read_invariant (r : Row) :
    ((convertRow r) "Date Read" ≠ "" → (convertRow r) "Exclusive Shelf" = "read") ∧
    (mapped_status r ≠ "read" → (convertRow r) "Date Read" = "") ∧
    (mapped_status r = "read" → (convertRow r) "Date Read" ≠ "" →
      ∃ v, ("Last Date Read", v) ∈ r ∧ convert_date_format v ≠ "") := by
  unfold convertRow
  by_cases hst : mapped_status r = "read"
  · rw [if_neg (by simp [hst])]
    refine ⟨fun _ => ?_, fun h => absurd hst h, fun _ hne => ?_⟩
    · rw [owned_preserves _ _ _ (by decide), readCount_preserves _ _ _ (by decide),
          authorLF_preserves _ _ (by decide), loop_ES, setF_other _ _ _ _ (by decide),
          setF_other _ _ _ _ (by decide), setF_same, hst]
    · rw [owned_preserves _ _ _ (by decide), readCount_preserves _ _ _ (by decide),
          authorLF_preserves _ _ (by decide)] at hne
      rcases loop_DR (mapped_status r) r _ with h | ⟨p, hp, hmap, _, hconv⟩
      · rw [h, setF_other _ _ _ _ (by decide), setF_other _ _ _ _ (by decide),
            setF_other _ _ _ _ (by decide)] at hne
        exact absurd rfl hne
      · refine ⟨p.2, ?_, hconv⟩
        have : p.1 = "Last Date Read" := field_mapping_date_read hmap
        rwa [← this]
  · rw [if_pos hst]
    refine ⟨fun hne => absurd (setF_same _ _ _) hne, fun _ => setF_same _ _ _,
            fun h => absurd h hst⟩

/-- Witness for C1 at a concrete non-"read" row with a parseable last-read
date: the written `Date Read` cell is empty. -/
theorem c1_witness :
    mapped_status [("Read Status", "to-read"), ("Last Date Read", "2024-03-15")] ≠ "read" ∧
      (convertRow [("Read Status", "to-read"), ("Last Date Read", "2024-03-15")])
        "Date Read" = "" :=
  ⟨by decide, (c1_date_read_invariant _).2.1 (by decide)⟩

/-! ## Claim C3: ISBN routing by digit count -/

lemma applyFieldGr_isbn_preserves (st : String) (g : String → String) (sv gr : String)
    (hgr13 : gr ≠ "ISBN13") (hgrI : gr ≠ "ISBN") :
    applyFieldGr st g sv gr "ISBN" = g "ISBN" ∧
      applyFieldGr st g sv gr "ISBN13" = g "ISBN13" := by
  unfold applyFieldGr
  split_ifs with hc hda hdae hdr hrdc hmr hi13 hne h10 h13 <;>
    first
      | exact ⟨rfl, rfl⟩
      | exact absurd hi13 hgr13
      | exact ⟨setF_other _ _ _ _ (by decide), setF_other _ _ _ _ (by decide)⟩
      | exact ⟨setF_other _ _ _ _ (Ne.symm hgrI), setF_other _ _ _ _ (Ne.symm hgr13)⟩

lemma applyField_isbn_preserves (st : String) (g : String → String)
    (p : String × String) (hp : p.1 ≠ "ISBN/UID") :
    applyField st g p "ISBN" = g "ISBN" ∧
      applyField st g p "ISBN13" = g "ISBN13" := by
  unfold applyField
  cases hm : field_mapping p.1 with
  | none => exact ⟨rfl, rfl⟩
  | some gr =>
    have hgr13 : gr ≠ "ISBN13" := fun h => hp (field_mapping_isbn13 (h ▸ hm))
    exact applyFieldGr_isbn_preserves st g p.2 gr hgr13 (field_mapping_ne_isbn hm)

lemma loop_isbn_preserves (st : String) (l : Row) (g : String → String)
    (h : ∀ p ∈ l, p.1 ≠ "ISBN/UID") :
    (l.foldl (applyField st) g) "ISBN" = g "ISBN" ∧
      (l.foldl (applyField st) g) "ISBN13" = g "ISBN13" := by
  induction l generalizing g with
  | nil => exact ⟨rfl, rfl⟩
  | cons p l ih =>
    rw [List.foldl_cons]
    have hstep := applyField_isbn_preserves st g p (h p (List.mem_cons_self p l))
    have hrest := ih (applyField st g p) (fun q hq => h q (List.mem_cons_of_mem p hq))
    exact ⟨hrest.1.trans hstep.1, hrest.2.trans hstep.2⟩

/-- The `ISBN/UID` loop iteration: routing by the stripped digit count. -/
lemma applyFieldGr_isbn_set (st : String) (g : String → String) (v : String) :
    ((v.data.filter Char.isDigit).length = 10 →
      applyFieldGr st g v "ISBN13" "ISBN" =
          "=\"\"" ++ (v.data.filter Char.isDigit).asString ++ "\"\"" ∧
        applyFieldGr st g v "ISBN13" "ISBN13" = "=\"\"=\"\"") ∧
    ((v.data.filter Char.isDigit).length = 13 →
      applyFieldGr st g v "ISBN13" "ISBN13" =
          "=\"\"" ++ (v.data.filter Char.isDigit).asString ++ "\"\"" ∧
        applyFieldGr st g v "ISBN13" "ISBN" = "=\"\"=\"\"") ∧
    ((v.data.filter Char.isDigit).length ≠ 10 →
      (v.data.filter Char.isDigit).length ≠ 13 →
      applyFieldGr st g v "ISBN13" "ISBN" = g "ISBN" ∧
        applyFieldGr st g v "ISBN13" "ISBN13" = g "ISBN13") := by
  unfold applyFieldGr
  rw [if_pos (by decide : ("ISBN13" : String) ∈ goodreads_fieldnames ∧
        ("ISBN13" : String) ≠ "Exclusive Shelf"),
      if_neg (by decide : ¬("ISBN13" : String) = "Date Added"),
      if_neg (by decide : ¬("ISBN13" : String) = "Date Read"),
      if_neg (by decide : ¬("ISBN13" : String) = "My Rating"),
      if_pos (rfl : ("ISBN13" : String) = "ISBN13")]
  refine ⟨fun h10 => ?_, fun h13 => ?_, fun h10 h13 => ?_⟩
  · rw [if_pos (show v.data.filter Char.isDigit ≠ [] from
          fun hnil => by rw [hnil] at h10; simp at h10), if_pos h10]
    exact ⟨(setF_other _ _ _ _ (by decide)).trans (setF_same _ _ _), setF_same _ _ _⟩
  · rw [if_pos (show v.data.filter Char.isDigit ≠ [] from
          fun hnil => by rw [hnil] at h13; simp at h13), if_neg (by omega), if_pos h13]
    exact ⟨(setF_other _ _ _ _ (by decide)).trans (setF_same _ _ _), setF_same _ _ _⟩
  · split_ifs <;> exact ⟨rfl, rfl⟩

/-- For a column untouched by all the fix-up passes, the converted row's
cell is whatever the mapping loop produced. -/
lemma convertRow_eq_loop (r : Row) (F : String) (h1 : F ≠ "Date Read")
    (h2 : F ≠ "Owned Copies") (h3 : F ≠ "Read Count") (h4 : F ≠ "Author l-f") :
    convertRow r F =
      (r.foldl (applyField (mapped_status r))
        (setF (setF (setF default_values "Exclusive Shelf" (mapped_status r))
          "Bookshelves" (mapped_status r))
          "Bookshelves with positions" (mapped_status r ++ " (#1)"))) F := by
  unfold convertRow
  by_cases hst : mapped_status r ≠ "read"
  · rw [if_pos hst, setF_other _ _ _ _ h1, owned_preserves _ _ _ h2,
        readCount_preserves _ _ _ h3, authorLF_preserves _ _ h4]
  · rw [if_neg hst, owned_preserves _ _ _ h2, readCount_preserves _ _ _ h3,
        authorLF_preserves _ _ h4]

lemma applyField_eq_gr (st : String) (g : String → String) (k v' gr : String)
    (h : field_mapping k = some gr) :
    applyField st g (k, v') = applyFieldGr st g v' gr := by
  unfold applyField
  simp only [h]

/-- C3: after stripping non-digits from the `ISBN/UID` value, exactly 10
digits land formula-escaped in `ISBN` (with `ISBN13` blank-escaped),
exactly 13 land in `ISBN13` (with `ISBN` blank-escaped), and any other
digit count leaves both fields at their defaults `=""""`. -/
theorem c3_isbn_routing (r : Row) (v : String)
    (hk : (r.map Prod.fst).Nodup) (hv : ("ISBN/UID", v) ∈ r) :
    ((v.data.filter Char.isDigit).length = 10 →
      (convertRow r) "ISBN" = "=\"\"" ++ (v.data.filter Char.isDigit).asString ++ "\"\"" ∧
        (convertRow r) "ISBN13" = "=\"\"=\"\"") ∧
    ((v.data.filter Char.isDigit).length = 13 →
      (convertRow r) "ISBN13" = "=\"\"" ++ (v.data.filter Char.isDigit).asString ++ "\"\"" ∧
        (convertRow r) "ISBN" = "=\"\"=\"\"") ∧
    ((v.data.filter Char.isDigit).length ≠ 10 →
      (v.data.filter Char.isDigit).length ≠ 13 →
      (convertRow r) "ISBN" = "=\"\"\"\"" ∧ (convertRow r) "ISBN13" = "=\"\"\"\"") := by
  obtain ⟨l1, l2, rfl⟩ := List.append_of_mem hv
  have hmap : (l1.map Prod.fst ++ "ISBN/UID" :: l2.map Prod.fst).Nodup := by
    simpa using hk
  rw [List.nodup_append] at hmap
  obtain ⟨-, h2, hdisj⟩ := hmap
  have hnotin1 : ∀ p ∈ l1, p.1 ≠ "ISBN/UID" := by
    intro p hp hcontra
    exact hdisj (hcontra ▸ List.mem_map_of_mem Prod.fst hp) (List.mem_cons_self _ _)
  have hnotin2 : ∀ p ∈ l2, p.1 ≠ "ISBN/UID" := by
    intro p hp hcontra
    rw [List.nodup_cons] at h2
    exact h2.1 (hcontra ▸ List.mem_map_of_mem Prod.fst hp)
  set rr := l1 ++ ("ISBN/UID", v) :: l2 with hrr
  set st := mapped_status rr with hstdef
  set g0 := setF (setF (setF default_values "Exclusive Shelf" st) "Bookshelves" st)
    "Bookshelves with positions" (st ++ " (#1)") with hg0
  set gmid := l1.foldl (applyField st) g0 with hgmid
  have hcell : ∀ F : String, F ≠ "Date Read" → F ≠ "Owned Copies" → F ≠ "Read Count" →
      F ≠ "Author l-f" →
      convertRow rr F = (l2.foldl (applyField st) (applyFieldGr st gmid v "ISBN13")) F := by
    intro F hF1 hF2 hF3 hF4
    rw [convertRow_eq_loop rr F hF1 hF2 hF3 hF4, hrr, List.foldl_append, List.foldl_cons,
        applyField_eq_gr st _ "ISBN/UID" v "ISBN13" (by decide)]
  have hISBN : convertRow rr "ISBN" = applyFieldGr st gmid v "ISBN13" "ISBN" := by
    rw [hcell "ISBN" (by decide) (by decide) (by decide) (by decide)]
    exact (loop_isbn_preserves st l2 _ hnotin2).1
  have hISBN13 : convertRow rr "ISBN13" = applyFieldGr st gmid v "ISBN13" "ISBN13" := by
    rw [hcell "ISBN13" (by decide) (by decide) (by decide) (by decide)]
    exact (loop_isbn_preserves st l2 _ hnotin2).2
  have hdef : gmid "ISBN" = "=\"\"\"\"" ∧ gmid "ISBN13" = "=\"\"\"\"" := by
    have hl1 := loop_isbn_preserves st l1 g0 hnotin1
    rw [hgmid]
    refine ⟨hl1.1.trans ?_, hl1.2.trans ?_⟩ <;>
      · rw [hg0, setF_other _ _ _ _ (by decide), setF_other _ _ _ _ (by decide),
            setF_other _ _ _ _ (by decide)]
        rfl
  obtain ⟨hset10, hset13, hsetelse⟩ := applyFieldGr_isbn_set st gmid v
  refine ⟨fun h10 => ?_, fun h13 => ?_, fun h10 h13 => ?_⟩
  · exact ⟨hISBN.trans (hset10 h10).1, hISBN13.trans (hset10 h10).2⟩
  · exact ⟨hISBN13.trans (hset13 h13).1, hISBN.trans (hset13 h13).2⟩
  · exact ⟨hISBN.trans ((hsetelse h10 h13).1.trans hdef.1),
      hISBN13.trans ((hsetelse h10 h13).2.trans hdef.2)⟩

/-- Witness for C3 at a concrete row with a hyphenated 13-digit ISBN. -/
theorem c3_witness :
    ((("978-0-14-312774-1" : String).data.filter Char.isDigit).length = 13) ∧
      (convertRow [("Title", "T"), ("ISBN/UID", "978-0-14-312774-1")]) "ISBN13" =
        "=\"\"" ++ (("978-0-14-312774-1" : String).data.filter Char.isDigit).asString ++
          "\"\"" :=
  ⟨by decide,
    ((c3_isbn_routing [("Title", "T"), ("ISBN/UID", "978-0-14-312774-1")]
      "978-0-14-312774-1" (by decide) (by decide)).2.1 (by decide)).1⟩

/-! ## Claim C7: the fixed output header -/

/-- C7 counterexample: the fixed output header has 24 columns, not the
claimed 23. -/
theorem c7_counterexample :
    (convert_csv_output []).head? = some goodreads_fieldnames ∧
      goodreads_fieldnames.length ≠ 23 := by
  constructor
  · rfl
  · decide

/-- C7 (amended): the output CSV always begins with the fixed **24**-column
header, identical for every run regardless of input, and every data row has
exactly those 24 cells in that order. -/
theorem c7_amended_fixed_header (rows : List Row) :
    (convert_csv_output rows).head? = some goodreads_fieldnames ∧
      goodreads_fieldnames.length = 24 ∧
      ∀ out ∈ convert_csv_rows rows, out.length = 24 := by
  refine ⟨rfl, by decide, fun out hout => ?_⟩
  obtain ⟨r, -, rfl⟩ := List.mem_map.mp hout
  rw [List.length_map]
  decide

/-- Witness for C7 (amended) on a one-row input. -/
theorem c7_witness :
    (goodreads_fieldnames.map (convertRow [("Title", "X")])).length = 24 :=
  (c7_amended_fixed_header [[("Title", "X")]]).2.2
    (goodreads_fieldnames.map (convertRow [("Title", "X")]))
    (List.mem_singleton.mpr rfl)

/-! ## Duplicate Filter lemmas -/

lemma memB_iff (x : String) (l : List String) : memB x l = true ↔ x ∈ l := by
  simp [memB, List.any_eq_true]

lemma existingStep_eq (tc : String) (ac ic : Option String) (acc : List String)
    (r : Row) :
    existingStep tc ac ic acc r = acc ++ claimInsertKeys false tc ac ic r := by
  unfold existingStep claimInsertKeys claimIsbn
  split_ifs <;> simp_all

lemma foldl_step_append {α : Type} (f : List String → α → List String)
    (K : α → List String) (hf : ∀ acc a, f acc a = acc ++ K a) (l : List α)
    (acc : List String) : l.foldl f acc = acc ++ l.flatMap K := by
  induction l generalizing acc with
  | nil => simp
  | cons a l ih => simp [hf, ih, List.append_assoc]

lemma existing_books_eq (tc : String) (ac ic : Option String) (rows : List Row) :
    existing_books tc ac ic rows = rows.flatMap (claimInsertKeys false tc ac ic) := by
  unfold existing_books
  rw [foldl_step_append _ _ (existingStep_eq tc ac ic) rows []]
  rfl

lemma is_dup_eq_any (books : List String) (tc : String) (ac ic : Option String)
    (r : Row) :
    is_dup books tc ac ic r =
      (claimCheckKeys false tc ac ic r).any (fun k => memB k books) := by
  unfold is_dup claimCheckKeys claimIsbn
  by_cases hi : rowIsbn ic r = "" <;> by_cases ha : rowAuthor ac r = "" <;>
    by_cases hmi : memB (rowIsbn ic r) books = true <;>
    by_cases hma : memB (rowTitle tc r ++ "|" ++ rowAuthor ac r) books = true <;>
    by_cases hmt : memB (rowTitle tc r) books = true <;>
    simp [hi, ha, hmi, hma, hmt]

/-! ## Claim C8: the identity-key normalization -/

/-- C8 counterexample: the code does NOT lowercase the ISBN key. With the
existing ISBN `"99X"` and the new ISBN `"99x"` (titles and authors all
different), the claim's normalization (lowercased ISBN) classifies the new
row as a duplicate and drops it, but the code keeps it; and directly, the
code's ISBN key of `"99X"` is not lowercase-invariant. -/
theorem c8_counterexample :
    claimCompare true ["Title", "Authors", "ISBN/UID"]
        [[("Title", "A"), ("Authors", "B"), ("ISBN/UID", "99X")]]
        ["Title", "Authors", "ISBN/UID"]
        [[("Title", "C"), ("Authors", "D"), ("ISBN/UID", "99x")]] =
      some (["Title", "Authors", "ISBN/UID"], []) ∧
    compare_storygraph_libraries ["Title", "Authors", "ISBN/UID"]
        [[("Title", "A"), ("Authors", "B"), ("ISBN/UID", "99X")]]
        ["Title", "Authors", "ISBN/UID"]
        [[("Title", "C"), ("Authors", "D"), ("ISBN/UID", "99x")]] =
      some (["Title", "Authors", "ISBN/UID"],
        [[("Title", "C"), ("Authors", "D"), ("ISBN/UID", "99x")]]) ∧
    normIsbn "99X" ≠ pyLower (normIsbn "99X") := by
  refine ⟨?_, ?_, ?_⟩ <;> decide

/-- C8 (amended): the Duplicate Filter behaves exactly as the claim-worded
key construction **without** lowercasing the ISBN: the ISBN key is the
trimmed ISBN with hyphens and formula-quote artifacts stripped, the title
and author keys are trimmed and lowercased, keys of the existing catalog
are pooled, and a new row is dropped when one of its candidate keys
(priority ISBN > title+author > title) is in the pool. -/
theorem c8_amended_key_normalization (eh : List String) (er : List Row)
    (nh : List String) (nr : List Row) :
    claimCompare false eh er nh nr = compare_storygraph_libraries eh er nh nr := by
  unfold claimCompare compare_storygraph_libraries
  cases find_column_name eh ["Title", "title"] with
  | none => rfl
  | some te =>
    cases find_column_name nh ["Title", "title"] with
    | none => rfl
    | some tn =>
      refine congrArg some (congrArg (Prod.mk nh) (List.filter_congr ?_))
      intro r _
      rw [is_dup_eq_any, existing_books_eq]

/-! ## Claim C4: disjoint catalogs pass through unfiltered -/

/-- C4 counterexample: keys of different kinds live in one pooled set, so a
new row's bare **title** `"12345"` matches the existing row's **ISBN** key
`"12345"` and the row is dropped — even though no ISBN, title+author, or
title-only key is shared like-for-like between the two rows (the existing
row's title key is `"x"`, its title+author keys differ, the new row has no
ISBN). The output is empty instead of the whole new catalog. -/
theorem c4_counterexample :
    (rowIsbn (some "ISBN/UID") [("Title", "12345"), ("Authors", ""), ("ISBN/UID", "")] =
        "" ∧
      rowIsbn (some "ISBN/UID") [("Title", "X"), ("Authors", ""), ("ISBN/UID", "12345")] =
        "12345" ∧
      rowTitle "Title" [("Title", "12345"), ("Authors", ""), ("ISBN/UID", "")] =
        "12345" ∧
      rowTitle "Title" [("Title", "X"), ("Authors", ""), ("ISBN/UID", "12345")] = "x" ∧
      rowAuthor (some "Authors")
        [("Title", "12345"), ("Authors", ""), ("ISBN/UID", "")] = "" ∧
      rowAuthor (some "Authors")
        [("Title", "X"), ("Authors", ""), ("ISBN/UID", "12345")] = "") ∧
    compare_storygraph_libraries ["Title", "Authors", "ISBN/UID"]
        [[("Title", "X"), ("Authors", ""), ("ISBN/UID", "12345")]]
        ["Title", "Authors", "ISBN/UID"]
        [[("Title", "12345"), ("Authors", ""), ("ISBN/UID", "")]] =
      some (["Title", "Authors", "ISBN/UID"], []) := by
  refine ⟨⟨?_, ?_, ?_, ?_, ?_, ?_⟩, ?_⟩ <;> decide

/-- C4 (amended): when no candidate key of any new-catalog row (its
non-empty normalized ISBN, its title+author key, or its bare title key)
occurs in the pooled key set collected from the existing catalog, the
output is the entire new catalog: same rows, same order, same values,
under the new file's original header. -/
theorem c4_amended_disjoint_pass_through (eh : List String) (er : List Row)
    (nh : List String) (nr : List Row) (te tn : String)
    (hte : find_column_name eh ["Title", "title"] = some te)
    (htn : find_column_name nh ["Title", "title"] = some tn)
    (hdisj : ∀ r ∈ nr, ∀ k ∈ claimCheckKeys false tn
      (find_column_name nh ["Authors", "Author", "authors", "author"])
      (find_column_name nh ["ISBN/UID", "ISBN", "isbn", "ISBN13", "isbn13"]) r,
      k ∉ existing_books te
        (find_column_name eh ["Authors", "Author", "authors", "author"])
        (find_column_name eh ["ISBN/UID", "ISBN", "isbn", "ISBN13", "isbn13"]) er) :
    compare_storygraph_libraries eh er nh nr = some (nh, nr) := by
  unfold compare_storygraph_libraries
  rw [hte, htn]
  refine congrArg some (congrArg (Prod.mk nh) ?_)
  rw [List.filter_eq_self]
  intro r hr
  rw [is_dup_eq_any]
  simp only [Bool.not_eq_true', Bool.not_eq_true]
  rw [List.any_eq_false]
  intro k hk hmemb
  exact hdisj r hr k hk ((memB_iff _ _).mp hmemb)

/-- Witness for C4 (amended) on concrete fully-disjoint catalogs. -/
theorem c4_witness :
    compare_storygraph_libraries ["Title", "Authors", "ISBN/UID"]
        [[("Title", "Dune"), ("Authors", "Frank Herbert"), ("ISBN/UID", "111")]]
        ["Title", "Authors", "ISBN/UID"]
        [[("Title", "Emma"), ("Authors", "Jane Austen"), ("ISBN/UID", "222")]] =
      some (["Title", "Authors", "ISBN/UID"],
        [[("Title", "Emma"), ("Authors", "Jane Austen"), ("ISBN/UID", "222")]]) :=
  c4_amended_disjoint_pass_through _ _ _ _ "Title" "Title" (by decide) (by decide)
    (by decide)

/-! ## Claim C5: shared normalized ISBN excludes the row -/

lemma mem_existing_books_isbn {tc : String} {ac ic : Option String} {rows : List Row}
    {e : Row} (he : e ∈ rows) (hne : rowIsbn ic e ≠ "") :
    rowIsbn ic e ∈ existing_books tc ac ic rows := by
  rw [existing_books_eq, List.mem_flatMap]
  exact ⟨e, he, by simp [claimInsertKeys, claimIsbn, hne]⟩

/-- C5: a new-catalog row whose normalized ISBN (trimmed, hyphens and
formula-quote artifacts stripped) is non-empty and equal to some
existing-catalog row's normalized ISBN is excluded from the output. -/
theorem c5_shared_isbn_excluded (eh : List String) (er : List Row)
    (nh : List String) (nr : List Row) (out : List String × List Row) (r e : Row)
    (hcomp : compare_storygraph_libraries eh er nh nr = some out)
    (hr : r ∈ nr) (he : e ∈ er)
    (hne : rowIsbn (find_column_name nh ["ISBN/UID", "ISBN", "isbn", "ISBN13", "isbn13"])
      r ≠ "")
    (heq : rowIsbn (find_column_name nh ["ISBN/UID", "ISBN", "isbn", "ISBN13", "isbn13"])
        r =
      rowIsbn (find_column_name eh ["ISBN/UID", "ISBN", "isbn", "ISBN13", "isbn13"]) e) :
    r ∉ out.2 := by
  unfold compare_storygraph_libraries at hcomp
  cases hte : find_column_name eh ["Title", "title"] with
  | none => rw [hte] at hcomp; exact absurd hcomp (by simp)
  | some te =>
    cases htn : find_column_name nh ["Title", "title"] with
    | none => rw [hte, htn] at hcomp; exact absurd hcomp (by simp)
    | some tn =>
      rw [hte, htn] at hcomp
      have hout := Option.some.inj hcomp
      rw [← hout]
      intro hmem
      have hdup : is_dup (existing_books te
          (find_column_name eh ["Authors", "Author", "authors", "author"])
          (find_column_name eh ["ISBN/UID", "ISBN", "isbn", "ISBN13", "isbn13"]) er) tn
          (find_column_name nh ["Authors", "Author", "authors", "author"])
          (find_column_name nh ["ISBN/UID", "ISBN", "isbn", "ISBN13", "isbn13"]) r =
          true := by
        unfold is_dup
        rw [if_pos ⟨hne, (memB_iff _ _).mpr (heq ▸ mem_existing_books_isbn he
          (heq ▸ hne))⟩]
      have := List.of_mem_filter hmem
      rw [hdup] at this
      exact absurd this (by decide)

/-- Witness for C5: a shared ISBN (up to hyphens/artifacts) drops the row. -/
theorem c5_witness :
    [("Title", "Other"), ("Authors", "Y"), ("ISBN/UID", "=\"111-222\"")] ∉
      ((["Title", "Authors", "ISBN/UID"], ([] : List Row)) :
        List String × List Row).2 :=
  c5_shared_isbn_excluded ["Title", "Authors", "ISBN/UID"]
    [[("Title", "Dune"), ("Authors", "Frank Herbert"), ("ISBN/UID", "111222")]]
    ["Title", "Authors", "ISBN/UID"]
    [[("Title", "Other"), ("Authors", "Y"), ("ISBN/UID", "=\"111-222\"")]]
    (["Title", "Authors", "ISBN/UID"], [])
    [("Title", "Other"), ("Authors", "Y"), ("ISBN/UID", "=\"111-222\"")]
    [("Title", "Dune"), ("Authors", "Frank Herbert"), ("ISBN/UID", "111222")]
    (by decide) (by decide) (by decide) (by decide) (by decide)

/-! ## Claim C6: the fixed-size split -/

lemma splitCsvAux_length (p : String) (header : List String) (n : Nat) :
    ∀ (k i : Nat) (rows : List (List String)),
      (splitCsvAux p header n k i rows).length = k := by
  intro k
  induction k with
  | zero => intro i rows; rfl
  | succ k ih => intro i rows; simp [splitCsvAux, ih]

lemma splitCsvAux_names (p : String) (header : List String) (n : Nat) :
    ∀ (k i : Nat) (rows : List (List String)),
      (splitCsvAux p header n k i rows).map (fun f => f.1) =
        (List.range k).map (fun j => p ++ "_" ++ Nat.repr (i + j) ++ ".csv") := by
  intro k
  induction k with
  | zero => intro i rows; rfl
  | succ k ih =>
    intro i rows
    rw [List.range_succ_eq_map]
    simp only [splitCsvAux, List.map_cons, List.map_map]
    rw [ih (i + 1) (rows.drop n)]
    refine congrArg₂ _ (by rw [Nat.add_zero]) ?_
    refine List.map_congr_left fun j _ => ?_
    have : i + 1 + j = i + (j + 1) := by omega
    simp [Function.comp, this]

lemma splitCsvAux_header (p : String) (header : List String) (n : Nat) :
    ∀ (k i : Nat) (rows : List (List String)) (f : String × List String × List (List String)),
      f ∈ splitCsvAux p header n k i rows → f.2.1 = header := by
  intro k
  induction k with
  | zero => intro i rows f hf; exact absurd hf (List.not_mem_nil f)
  | succ k ih =>
    intro i rows f hf
    rcases List.mem_cons.mp hf with rfl | h
    · rfl
    · exact ih (i + 1) (rows.drop n) f h

lemma splitCsvAux_join (p : String) (header : List String) (n : Nat) :
    ∀ (k i : Nat) (rows : List (List String)), rows.length ≤ k * n →
      ((splitCsvAux p header n k i rows).map (fun f => f.2.2)).flatten = rows := by
  intro k
  induction k with
  | zero =>
    intro i rows h
    simp only [Nat.zero_mul, Nat.le_zero, List.length_eq_zero] at h
    rw [h]
    rfl
  | succ k ih =>
    intro i rows h
    rw [Nat.succ_mul] at h
    simp only [splitCsvAux, List.map_cons, List.flatten_cons]
    rw [ih (i + 1) (rows.drop n) (by simp only [List.length_drop]; omega)]
    exact List.take_append_drop n rows

lemma splitCsvAux_size (p : String) (header : List String) (n : Nat) :
    ∀ (k i : Nat) (rows : List (List String)) (f : String × List String × List (List String)),
      f ∈ splitCsvAux p header n k i rows → f.2.2.length ≤ n := by
  intro k
  induction k with
  | zero => intro i rows f hf; exact absurd hf (List.not_mem_nil f)
  | succ k ih =>
    intro i rows f hf
    rcases List.mem_cons.mp hf with rfl | h
    · simp
    · exact ih (i + 1) (rows.drop n) f h

/-- Every chunk that is not the last one holds exactly `n` rows. -/
lemma splitCsvAux_full (p : String) (header : List String) (n : Nat) :
    ∀ (k i : Nat) (rows : List (List String)) pre f post,
      (k - 1) * n < rows.length →
      splitCsvAux p header n k i rows = pre ++ f :: post → post ≠ [] →
      f.2.2.length = n := by
  intro k
  induction k with
  | zero =>
    intro i rows pre f post hlen heq hpost
    exact absurd heq.symm (by simp [splitCsvAux])
  | succ k ih =>
    intro i rows pre f post hlen heq hpost
    cases pre with
    | nil =>
      simp only [splitCsvAux, List.nil_append] at heq
      injection heq with hf hrest
      have hk : 1 ≤ k := by
        rcases Nat.eq_zero_or_pos k with rfl | hk
        · refine absurd ?_ hpost
          rw [← hrest]
          rfl
        · exact hk
      have h1 : n ≤ k * n := by
        calc n = 1 * n := (Nat.one_mul n).symm
        _ ≤ k * n := Nat.mul_le_mul_right n hk
      have h2 : k * n < rows.length := by simpa using hlen
      rw [← hf]
      simp only [List.length_take]
      omega
    | cons q pre' =>
      simp only [splitCsvAux, List.cons_append] at heq
      injection heq with hq hrest
      rcases Nat.eq_zero_or_pos k with rfl | hk
      · exact absurd hrest.symm (by simp [splitCsvAux])
      · refine ih (i + 1) (rows.drop n) pre' f post ?_ hrest hpost
        have h2 : k * n < rows.length := by simpa using hlen
        have h3 : (k - 1) * n + n = k * n := by
          cases k with
          | zero => exact absurd hk (by omega)
          | succ k' => simp [Nat.succ_sub_one, Nat.succ_mul]
        simp only [List.length_drop]
        omega

/-- C6: for `0 < n`, the fixed-size split writes exactly
`ceil(total/n)` files named `<prefix>_1.csv` … `<prefix>_k.csv` in order,
each carrying the original header; each holds at most `n` data rows;
concatenating all chunks in order reconstructs the input exactly; and every
chunk other than the final one holds exactly `n` rows. `num_chunks` is the
ceiling: `total ≤ n·k` and `n·(k-1) < total` for non-empty input, and
`k = 0` for empty input. -/
theorem c6_fixed_size_split (p : String) (n : Nat) (header : List String)
    (rows : List (List String)) (hn : 0 < n) :
    (split_csv p n header rows).length = num_chunks n rows.length ∧
    (split_csv p n header rows).map (fun f => f.1) =
      (List.range (num_chunks n rows.length)).map
        (fun j => p ++ "_" ++ Nat.repr (j + 1) ++ ".csv") ∧
    (∀ f ∈ split_csv p n header rows, f.2.1 = header) ∧
    ((split_csv p n header rows).map (fun f => f.2.2)).flatten = rows ∧
    (∀ f ∈ split_csv p n header rows, f.2.2.length ≤ n) ∧
    (∀ pre f post, split_csv p n header rows = pre ++ f :: post → post ≠ [] →
      f.2.2.length = n) ∧
    rows.length ≤ n * num_chunks n rows.length ∧
    (rows.length = 0 → num_chunks n rows.length = 0) ∧
    (0 < rows.length → n * (num_chunks n rows.length - 1) < rows.length) := by
  have hq1 : rows.length ≤ n * num_chunks n rows.length := by
    have hdm := Nat.div_add_mod (rows.length + n - 1) n
    have hmod : (rows.length + n - 1) % n < n := Nat.mod_lt _ hn
    simp only [num_chunks]
    omega
  have hq2 : rows.length = 0 → num_chunks n rows.length = 0 := by
    intro h
    simp only [num_chunks, h, Nat.zero_add]
    exact Nat.div_eq_of_lt (by omega)
  have hq3 : 0 < rows.length → n * (num_chunks n rows.length - 1) < rows.length := by
    intro h
    have hdm := Nat.div_add_mod (rows.length + n - 1) n
    have hmod : (rows.length + n - 1) % n < n := Nat.mod_lt _ hn
    simp only [num_chunks] at hdm hmod ⊢
    rcases hq : (rows.length + n - 1) / n with _ | q'
    · simp
      omega
    · rw [hq, Nat.mul_succ] at hdm
      simp only [Nat.succ_sub_one]
      omega
  refine ⟨splitCsvAux_length p header n _ 1 rows, ?_,
    splitCsvAux_header p header n _ 1 rows,
    splitCsvAux_join p header n _ 1 rows (by rw [Nat.mul_comm] at hq1; exact hq1),
    splitCsvAux_size p header n _ 1 rows, ?_, hq1, hq2, hq3⟩
  · rw [split_csv, splitCsvAux_names p header n _ 1 rows]
    exact List.map_congr_left fun j _ => by rw [Nat.add_comm 1 j]
  · intro pre f post heq hpost
    refine splitCsvAux_full p header n _ 1 rows pre f post ?_ heq hpost
    rcases Nat.eq_zero_or_pos rows.length with h0 | h0
    · exfalso
      rw [split_csv, hq2 h0] at heq
      exact absurd heq.symm (by simp [splitCsvAux])
    · rw [Nat.mul_comm]
      exact hq3 h0

/-- Witness for C6 at `n = 2` over three rows. -/
theorem c6_witness :
    (0 : Nat) < 2 ∧
      ((split_csv "out" 2 ["h"] [["a"], ["b"], ["c"]]).map (fun f => f.2.2)).flatten =
        [["a"], ["b"], ["c"]] :=
  ⟨by decide, (c6_fixed_size_split "out" 2 ["h"] [["a"], ["b"], ["c"]]
    (by decide)).2.2.2.1⟩
/-! ## Claim C10: the status split's empty-vs-missing distinction -/

lemma addToGroups_mem_same (gs : List (String × List Row)) (s : String) (r : Row) :
    ∃ rs, (s, rs) ∈ addToGroups gs s r ∧ r ∈ rs := by
  induction gs with
  | nil => exact ⟨[r], List.mem_singleton.mpr rfl, List.mem_singleton.mpr rfl⟩
  | cons g tl ih =>
    obtain ⟨s', rs'⟩ := g
    by_cases h : s' = s
    · subst h
      exact ⟨rs' ++ [r], by simp [addToGroups], by simp⟩
    · obtain ⟨rs, hmem, hr⟩ := ih
      exact ⟨rs, by simp [addToGroups, h, hmem], hr⟩

lemma addToGroups_preserve (gs : List (String × List Row)) (s1 : String) (r1 : Row)
    {s : String} {rs : List Row} {r0 : Row} (h : (s, rs) ∈ gs) (hr : r0 ∈ rs) :
    ∃ rs', (s, rs') ∈ addToGroups gs s1 r1 ∧ r0 ∈ rs' := by
  induction gs with
  | nil => exact absurd h (List.not_mem_nil _)
  | cons g tl ih =>
    rcases List.mem_cons.mp h with heq | htl
    · subst heq
      by_cases hs : s = s1
      · subst hs
        exact ⟨rs ++ [r1], by simp [addToGroups], List.mem_append_left _ hr⟩
      · exact ⟨rs, by simp [addToGroups, hs], hr⟩
    · obtain ⟨s', rs''⟩ := g
      by_cases hs : s' = s1
      · subst hs
        exact ⟨rs, by simp [addToGroups, htl], hr⟩
      · obtain ⟨rs', hmem, hr'⟩ := ih htl
        exact ⟨rs', by simp [addToGroups, hs, hmem], hr'⟩

lemma foldl_groups_preserve (rows : List Row) :
    ∀ (gs : List (String × List Row)) {s : String} {rs : List Row} {r0 : Row},
      (s, rs) ∈ gs → r0 ∈ rs →
      ∃ rs', (s, rs') ∈ rows.foldl (fun gs r => addToGroups gs (statusOf r) r) gs ∧
        r0 ∈ rs' := by
  induction rows with
  | nil =>
    intro gs s rs r0 h hr
    exact ⟨rs, h, hr⟩
  | cons r rows ih =>
    intro gs s rs r0 h hr
    rw [List.foldl_cons]
    obtain ⟨rs', hmem, hr'⟩ := addToGroups_preserve gs (statusOf r) r h hr
    exact ih _ hmem hr'

lemma statusGroups_mem {rows : List Row} {r : Row} (hr : r ∈ rows) :
    ∃ rs, (statusOf r, rs) ∈ statusGroups rows ∧ r ∈ rs := by
  obtain ⟨l1, l2, rfl⟩ := List.append_of_mem hr
  rw [statusGroups, List.foldl_append, List.foldl_cons]
  obtain ⟨rs, hmem, hr0⟩ := addToGroups_mem_same
    (l1.foldl (fun gs r => addToGroups gs (statusOf r) r) []) (statusOf r) r
  exact foldl_groups_preserve l2 _ hmem hr0

lemma foldl_groups_unknown :
    ∀ (rows : List Row) (acc : List Row), (∀ r ∈ rows, statusOf r = "unknown") →
      rows.foldl (fun gs r => addToGroups gs (statusOf r) r) [("unknown", acc)] =
        [("unknown", acc ++ rows)] := by
  intro rows
  induction rows with
  | nil => intro acc _; simp
  | cons r rows ih =>
    intro acc h
    rw [List.foldl_cons]
    have hst : statusOf r = "unknown" := h r (List.mem_cons_self r rows)
    rw [hst]
    show rows.foldl _ (addToGroups [("unknown", acc)] "unknown" r) = _
    rw [show addToGroups [("unknown", acc)] "unknown" r = [("unknown", acc ++ [r])] by
      simp [addToGroups]]
    rw [ih (acc ++ [r]) (fun q hq => h q (List.mem_cons_of_mem r hq))]
    simp

/-- C10: in status-split mode, a row whose `Exclusive Shelf` cell exists
but is empty goes to the file `<prefix>_.csv` (status key `""`), while the
`"unknown"` default applies exactly when the column is absent from the row
(no `Exclusive Shelf` key at all, i.e. the column is missing from the
header), in which case every row lands in `<prefix>_unknown.csv`. -/
theorem c10_empty_vs_unknown_status (p : String) (fns : List String)
    (rows : List Row) :
    (∀ r ∈ rows, List.lookup "Exclusive Shelf" r = some "" →
      ∃ rs, (p ++ "_.csv", fns, rs) ∈ split_by_status p fns rows ∧ r ∈ rs) ∧
    ((∀ r ∈ rows, List.lookup "Exclusive Shelf" r = none) → rows ≠ [] →
      split_by_status p fns rows = [(p ++ "_unknown.csv", fns, rows)]) := by
  constructor
  · intro r hr hlook
    have hst : statusOf r = "" := by rw [statusOf, hlook]; rfl
    obtain ⟨rs, hmem, hrin⟩ := statusGroups_mem hr
    refine ⟨rs, ?_, hrin⟩
    have hmm := List.mem_map_of_mem
      (fun g : String × List Row => (p ++ "_" ++ g.1 ++ ".csv", fns, g.2)) hmem
    rw [split_by_status]
    have hfn : p ++ "_" ++ statusOf r ++ ".csv" = p ++ "_.csv" := by
      rw [hst, String.append_empty, String.append_assoc]
      exact congrArg (fun t => p ++ t) (by decide)
    rw [← hfn]
    exact hmm
  · intro hall hne
    cases rows with
    | nil => exact absurd rfl hne
    | cons r rows =>
      have hst : statusOf r = "unknown" := by
        rw [statusOf, hall r (List.mem_cons_self r rows)]
        rfl
      rw [split_by_status, statusGroups, List.foldl_cons]
      rw [show addToGroups [] (statusOf r) r = [(statusOf r, [r])] from rfl, hst]
      rw [foldl_groups_unknown rows [r] (fun q hq => by
        rw [statusOf, hall q (List.mem_cons_of_mem r hq)]; rfl)]
      simp only [List.map_cons, List.map_nil, List.singleton_append]
      have hfn : p ++ "_" ++ "unknown" ++ ".csv" = p ++ "_unknown.csv" := by
        rw [String.append_assoc p "_" "unknown", String.append_assoc]
        exact congrArg (fun t => p ++ t) (by decide)
      rw [hfn]

/-- Witness for C10 on a two-row input: the empty-status row is written to
`out_.csv`. -/
theorem c10_witness :
    ∃ rs, ("out_.csv", ["Title", "Exclusive Shelf"], rs) ∈
        split_by_status "out" ["Title", "Exclusive Shelf"]
          [[("Title", "A"), ("Exclusive Shelf", "read")],
           [("Title", "B"), ("Exclusive Shelf", "")]] ∧
      [("Title", "B"), ("Exclusive Shelf", "")] ∈ rs :=
  (c10_empty_vs_unknown_status "out" ["Title", "Exclusive Shelf"]
    [[("Title", "A"), ("Exclusive Shelf", "read")],
     [("Title", "B"), ("Exclusive Shelf", "")]]).1
    [("Title", "B"), ("Exclusive Shelf", "")] (by decide) (by decide)

end SG
